import Mathlib

/-!
Verification of the market-structure detection core in
`src/app/services/smc_strategy.py` (class `SMCStrategy`).

The Python code is shallowly embedded: a pandas `DataFrame` of OHLC rows
becomes a `List Bar`, prices become `ℚ`, the mutable `StructureState`
dataclass becomes an immutable record threaded through the functions, and
each method of `SMCStrategy` becomes a Lean function of the same name
(leading underscores dropped).  Pandas specifics that matter are noted at
each definition (`max()` of an empty window is `NaN` and any comparison
with `NaN` is false; `rolling(14).mean()` is `NaN` until 14 observations
exist; `concat(...).max(axis=1)` skips `NaN` entries).
-/

namespace SMC

instance : Std.Antisymm (fun (a b : ℚ) => a ≤ b) :=
  ⟨@fun _ _ h h' => le_antisymm h h'⟩

/-- One OHLC row of the DataFrame handed to `SMCStrategy` (the `time`
index column carries no information used by any property verified here,
so it is dropped; bars are identified by position). -/
structure Bar where
  open_ : ℚ
  high : ℚ
  low : ℚ
  close : ℚ
  deriving Repr, DecidableEq

/-- `df.iloc[i]`.  Every use below is at an in-range position; the default
row only makes the function total. -/
def barAt (bars : List Bar) (i : Nat) : Bar :=
  bars.getD i ⟨0, 0, 0, 0⟩

/-- The `Pivot` dataclass.  `time` is dropped (see `Bar`); the `crossed`
field is created `False` by `_get_pivots` and is only ever consulted
through the `StructureState` flags, so it is dropped as well. -/
structure Pivot where
  index : Nat
  price : ℚ
  is_high : Bool
  deriving Repr, DecidableEq

/-- The body of the `for i in range(length, len(df))` loop of `_get_pivots`,
high side: the window `df['high'].iloc[candidate_idx+1 : i+1]` and the test
`candidate_high > current_window_highs.max()`.  Pandas `max()` of an empty
window is `NaN` and `x > NaN` is false, which is the `none` branch. -/
def pivotHighAt (bars : List Bar) (length i : Nat) : Option Pivot :=
  let candidate_idx := i - length
  let window := ((bars.drop (candidate_idx + 1)).take (i + 1 - (candidate_idx + 1))).map Bar.high
  let candidate_high := (barAt bars candidate_idx).high
  match window.max? with
  | none => none
  | some m => if candidate_high > m then some ⟨candidate_idx, candidate_high, true⟩ else none

/-- The low side of the same loop body: `candidate_low < current_window_lows.min()`. -/
def pivotLowAt (bars : List Bar) (length i : Nat) : Option Pivot :=
  let candidate_idx := i - length
  let window := ((bars.drop (candidate_idx + 1)).take (i + 1 - (candidate_idx + 1))).map Bar.low
  let candidate_low := (barAt bars candidate_idx).low
  match window.min? with
  | none => none
  | some m => if candidate_low < m then some ⟨candidate_idx, candidate_low, false⟩ else none

/-- `_get_pivots(df, length)`: on fewer than `length + 1` bars it returns the
two empty lists (it does not raise); otherwise it scans `i` over
`range(length, len(df))` appending confirmed pivots in loop order. -/
def get_pivots (bars : List Bar) (length : Nat) : List Pivot × List Pivot :=
  if bars.length < length + 1 then ([], [])
  else
    ((List.range' length (bars.length - length)).filterMap (pivotHighAt bars length),
     (List.range' length (bars.length - length)).filterMap (pivotLowAt bars length))

/-! ### Window and pivot characterization lemmas -/

theorem mem_window_iff {bars : List Bar} {f : Bar → ℚ} {a b : Nat} (hb : b ≤ bars.length)
    {x : ℚ} : x ∈ ((bars.drop a).take (b - a)).map f ↔
      ∃ j, a ≤ j ∧ j < b ∧ x = f (barAt bars j) := by
  rw [List.mem_map]
  constructor
  · rintro ⟨bar, hbar, rfl⟩
    rw [List.mem_iff_getElem] at hbar
    obtain ⟨k, hk, hget⟩ := hbar
    have hk' : k < b - a ∧ a + k < bars.length := by
      rw [List.length_take, List.length_drop] at hk
      omega
    refine ⟨a + k, by omega, by omega, ?_⟩
    rw [List.getElem_take, List.getElem_drop] at hget
    rw [← hget, barAt, List.getD_eq_getElem _ _ hk'.2]
  · rintro ⟨j, haj, hjb, rfl⟩
    have hjlen : j < bars.length := lt_of_lt_of_le hjb hb
    refine ⟨barAt bars j, ?_, rfl⟩
    rw [List.mem_iff_getElem]
    have hlen : j - a < ((bars.drop a).take (b - a)).length := by
      rw [List.length_take, List.length_drop]; omega
    refine ⟨j - a, hlen, ?_⟩
    rw [List.getElem_take, List.getElem_drop, barAt, List.getD_eq_getElem _ _ hjlen]
    congr 1
    omega

theorem max?_lt_iff {l : List ℚ} {a : ℚ} (hne : l ≠ []) :
    (∃ m : ℚ, l.max? = some m ∧ m < a) ↔ ∀ x ∈ l, x < a := by
  constructor
  · rintro ⟨m, hm, hlt⟩ x hx
    have h := (List.max?_eq_some_iff (fun a => le_refl a) (fun a b => max_choice a b)
      (fun _ _ _ => max_le_iff)).mp hm
    exact lt_of_le_of_lt (h.2 x hx) hlt
  · intro h
    cases hmax : l.max? with
    | none => exact absurd (List.max?_eq_none_iff.mp hmax) hne
    | some m =>
      have hmem := (List.max?_eq_some_iff (fun a => le_refl a) (fun a b => max_choice a b)
        (fun _ _ _ => max_le_iff)).mp hmax
      exact ⟨m, rfl, h m hmem.1⟩

theorem min?_gt_iff {l : List ℚ} {a : ℚ} (hne : l ≠ []) :
    (∃ m : ℚ, l.min? = some m ∧ a < m) ↔ ∀ x ∈ l, a < x := by
  constructor
  · rintro ⟨m, hm, hlt⟩ x hx
    have h := (List.min?_eq_some_iff (fun a => le_refl a) (fun a b => min_choice a b)
      (fun _ _ _ => le_min_iff)).mp hm
    exact lt_of_lt_of_le hlt (h.2 x hx)
  · intro h
    cases hmin : l.min? with
    | none => exact absurd (List.min?_eq_none_iff.mp hmin) hne
    | some m =>
      have hmem := (List.min?_eq_some_iff (fun a => le_refl a) (fun a b => min_choice a b)
        (fun _ _ _ => le_min_iff)).mp hmin
      exact ⟨m, rfl, h m hmem.1⟩

theorem pivotHighAt_eq_some_iff {bars : List Bar} {length i : Nat} {p : Pivot}
    (hL : 1 ≤ length) (hle : length ≤ i) (hi : i < bars.length) :
    pivotHighAt bars length i = some p ↔
      p = ⟨i - length, (barAt bars (i - length)).high, true⟩ ∧
      ∀ j, i - length < j → j ≤ i → (barAt bars j).high < (barAt bars (i - length)).high := by
  have hwin : ∀ x : ℚ,
      x ∈ ((bars.drop (i - length + 1)).take (i + 1 - (i - length + 1))).map Bar.high ↔
        ∃ j, i - length + 1 ≤ j ∧ j < i + 1 ∧ x = (barAt bars j).high := fun x =>
    @mem_window_iff bars Bar.high (i - length + 1) (i + 1) (by omega) x
  have hne : ((bars.drop (i - length + 1)).take (i + 1 - (i - length + 1))).map Bar.high ≠ [] := by
    intro hcontra
    have hmem : (barAt bars i).high ∈
        ((bars.drop (i - length + 1)).take (i + 1 - (i - length + 1))).map Bar.high := by
      rw [hwin]; exact ⟨i, by omega, by omega, rfl⟩
    rw [hcontra] at hmem
    exact absurd hmem (List.not_mem_nil _)
  simp only [pivotHighAt]
  constructor
  · intro h
    cases hmax : (((bars.drop (i - length + 1)).take (i + 1 - (i - length + 1))).map Bar.high).max? with
    | none =>
      rw [hmax] at h
      exact absurd h (by simp)
    | some m =>
      rw [hmax] at h
      dsimp only at h
      by_cases hlt : (barAt bars (i - length)).high > m
      · rw [if_pos hlt] at h
        injection h with h
        refine ⟨h.symm, ?_⟩
        intro j hj1 hj2
        have hall : ∀ x ∈ ((bars.drop (i - length + 1)).take (i + 1 - (i - length + 1))).map Bar.high,
            x < (barAt bars (i - length)).high :=
          (max?_lt_iff hne).mp ⟨m, hmax, hlt⟩
        exact hall _ ((hwin _).mpr ⟨j, by omega, by omega, rfl⟩)
      · rw [if_neg hlt] at h
        exact absurd h (by simp)
  · rintro ⟨rfl, hall⟩
    have hforall : ∀ x ∈ ((bars.drop (i - length + 1)).take (i + 1 - (i - length + 1))).map Bar.high,
        x < (barAt bars (i - length)).high := by
      intro x hx
      obtain ⟨j, hj1, hj2, rfl⟩ := (hwin x).mp hx
      exact hall j (by omega) (by omega)
    obtain ⟨m, hmax, hlt⟩ := (max?_lt_iff hne).mpr hforall
    rw [hmax]
    dsimp only
    rw [if_pos hlt]

theorem pivotLowAt_eq_some_iff {bars : List Bar} {length i : Nat} {p : Pivot}
    (hL : 1 ≤ length) (hle : length ≤ i) (hi : i < bars.length) :
    pivotLowAt bars length i = some p ↔
      p = ⟨i - length, (barAt bars (i - length)).low, false⟩ ∧
      ∀ j, i - length < j → j ≤ i → (barAt bars (i - length)).low < (barAt bars j).low := by
  have hwin : ∀ x : ℚ,
      x ∈ ((bars.drop (i - length + 1)).take (i + 1 - (i - length + 1))).map Bar.low ↔
        ∃ j, i - length + 1 ≤ j ∧ j < i + 1 ∧ x = (barAt bars j).low := fun x =>
    @mem_window_iff bars Bar.low (i - length + 1) (i + 1) (by omega) x
  have hne : ((bars.drop (i - length + 1)).take (i + 1 - (i - length + 1))).map Bar.low ≠ [] := by
    intro hcontra
    have hmem : (barAt bars i).low ∈
        ((bars.drop (i - length + 1)).take (i + 1 - (i - length + 1))).map Bar.low := by
      rw [hwin]; exact ⟨i, by omega, by omega, rfl⟩
    rw [hcontra] at hmem
    exact absurd hmem (List.not_mem_nil _)
  simp only [pivotLowAt]
  constructor
  · intro h
    cases hmin : (((bars.drop (i - length + 1)).take (i + 1 - (i - length + 1))).map Bar.low).min? with
    | none =>
      rw [hmin] at h
      exact absurd h (by simp)
    | some m =>
      rw [hmin] at h
      dsimp only at h
      by_cases hlt : (barAt bars (i - length)).low < m
      · rw [if_pos hlt] at h
        injection h with h
        refine ⟨h.symm, ?_⟩
        intro j hj1 hj2
        have hall : ∀ x ∈ ((bars.drop (i - length + 1)).take (i + 1 - (i - length + 1))).map Bar.low,
            (barAt bars (i - length)).low < x :=
          (min?_gt_iff hne).mp ⟨m, hmin, hlt⟩
        exact hall _ ((hwin _).mpr ⟨j, by omega, by omega, rfl⟩)
      · rw [if_neg hlt] at h
        exact absurd h (by simp)
  · rintro ⟨rfl, hall⟩
    have hforall : ∀ x ∈ ((bars.drop (i - length + 1)).take (i + 1 - (i - length + 1))).map Bar.low,
        (barAt bars (i - length)).low < x := by
      intro x hx
      obtain ⟨j, hj1, hj2, rfl⟩ := (hwin x).mp hx
      exact hall j (by omega) (by omega)
    obtain ⟨m, hmin, hlt⟩ := (min?_gt_iff hne).mpr hforall
    rw [hmin]
    dsimp only
    rw [if_pos hlt]

theorem mem_get_pivots_highs {bars : List Bar} {length : Nat} {p : Pivot} (hL : 1 ≤ length) :
    p ∈ (get_pivots bars length).1 ↔
      p.index + length < bars.length ∧
      p.price = (barAt bars p.index).high ∧ p.is_high = true ∧
      ∀ j, p.index < j → j ≤ p.index + length →
        (barAt bars j).high < (barAt bars p.index).high := by
  obtain ⟨pi, pp, ph⟩ := p
  unfold get_pivots
  by_cases hshort : bars.length < length + 1
  · rw [if_pos hshort]
    simp only [List.not_mem_nil, false_iff]
    intro hcontra
    omega
  · rw [if_neg hshort]
    simp only [List.mem_filterMap, List.mem_range'_1]
    constructor
    · rintro ⟨i, ⟨hi1, hi2⟩, hsome⟩
      have hi2' : i < bars.length := by omega
      obtain ⟨hp, hall⟩ := (pivotHighAt_eq_some_iff hL hi1 hi2').mp hsome
      injection hp with hp1 hp2 hp3
      subst hp1; subst hp2; subst hp3
      refine ⟨by omega, rfl, rfl, ?_⟩
      intro j hj1 hj2
      exact hall j (by omega) (by omega)
    · rintro ⟨h1, h2, h3, h4⟩
      subst h2; subst h3
      refine ⟨pi + length, ⟨by omega, by omega⟩, ?_⟩
      rw [pivotHighAt_eq_some_iff hL (by omega) (by omega)]
      rw [show pi + length - length = pi from by omega]
      exact ⟨rfl, h4⟩

theorem mem_get_pivots_lows {bars : List Bar} {length : Nat} {p : Pivot} (hL : 1 ≤ length) :
    p ∈ (get_pivots bars length).2 ↔
      p.index + length < bars.length ∧
      p.price = (barAt bars p.index).low ∧ p.is_high = false ∧
      ∀ j, p.index < j → j ≤ p.index + length →
        (barAt bars p.index).low < (barAt bars j).low := by
  obtain ⟨pi, pp, ph⟩ := p
  unfold get_pivots
  by_cases hshort : bars.length < length + 1
  · rw [if_pos hshort]
    simp only [List.not_mem_nil, false_iff]
    intro hcontra
    omega
  · rw [if_neg hshort]
    simp only [List.mem_filterMap, List.mem_range'_1]
    constructor
    · rintro ⟨i, ⟨hi1, hi2⟩, hsome⟩
      have hi2' : i < bars.length := by omega
      obtain ⟨hp, hall⟩ := (pivotLowAt_eq_some_iff hL hi1 hi2').mp hsome
      injection hp with hp1 hp2 hp3
      subst hp1; subst hp2; subst hp3
      refine ⟨by omega, rfl, rfl, ?_⟩
      intro j hj1 hj2
      exact hall j (by omega) (by omega)
    · rintro ⟨h1, h2, h3, h4⟩
      subst h2; subst h3
      refine ⟨pi + length, ⟨by omega, by omega⟩, ?_⟩
      rw [pivotLowAt_eq_some_iff hL (by omega) (by omega)]
      rw [show pi + length - length = pi from by omega]
      exact ⟨rfl, h4⟩

theorem get_pivots_highs_sorted (bars : List Bar) (length : Nat) (hL : 1 ≤ length) :
    (get_pivots bars length).1.Pairwise (fun p q => p.index < q.index) := by
  unfold get_pivots
  by_cases hshort : bars.length < length + 1
  · rw [if_pos hshort]; exact List.Pairwise.nil
  · rw [if_neg hshort]
    dsimp only
    rw [List.pairwise_filterMap]
    refine (List.pairwise_lt_range' length (bars.length - length) 1).imp_of_mem ?_
    intro a b ha hb hab pa hpa pb hpb
    rw [List.mem_range'_1] at ha hb
    rw [Option.mem_def] at hpa hpb
    have h1 := ((pivotHighAt_eq_some_iff hL ha.1 (by omega)).mp hpa).1
    have h2 := ((pivotHighAt_eq_some_iff hL hb.1 (by omega)).mp hpb).1
    subst h1; subst h2
    simp only
    omega

theorem get_pivots_lows_sorted (bars : List Bar) (length : Nat) (hL : 1 ≤ length) :
    (get_pivots bars length).2.Pairwise (fun p q => p.index < q.index) := by
  unfold get_pivots
  by_cases hshort : bars.length < length + 1
  · rw [if_pos hshort]; exact List.Pairwise.nil
  · rw [if_neg hshort]
    dsimp only
    rw [List.pairwise_filterMap]
    refine (List.pairwise_lt_range' length (bars.length - length) 1).imp_of_mem ?_
    intro a b ha hb hab pa hpa pb hpb
    rw [List.mem_range'_1] at ha hb
    rw [Option.mem_def] at hpa hpb
    have h1 := ((pivotLowAt_eq_some_iff hL ha.1 (by omega)).mp hpa).1
    have h2 := ((pivotLowAt_eq_some_iff hL hb.1 (by omega)).mp hpb).1
    subst h1; subst h2
    simp only
    omega

/-! ### Claims C1 and C2: the pivot detector -/

/-- C1, counterexample to the claim as stated: the claim says that on fewer
than `length + 1` bars, `pivots(bars, length)` raises `InsufficientData`
"rather than silently returning empty or partial results".  The code has no
failure path at all: on a 1-bar input with `length = 5` the guard at lines
92-93 of `smc_strategy.py` silently returns the pair of empty lists. -/
theorem C1_counterexample :
    get_pivots [⟨1, 1, 1, 1⟩] 5 = ([], []) := by
  unfold get_pivots
  rw [if_pos (by decide)]

/-- C1 (amended): whenever `len(bars) < length + 1`, `_get_pivots` returns
the pair of empty lists instead of raising. -/
theorem C1_short_input_returns_empty (bars : List Bar) (length : Nat)
    (h : bars.length < length + 1) : get_pivots bars length = ([], []) := by
  unfold get_pivots
  rw [if_pos h]

/-- Closed instance of `C1_short_input_returns_empty` at a concrete input. -/
theorem C1_witness :
    ([⟨2, 3, 1, 2⟩, ⟨2, 4, 2, 3⟩] : List Bar).length < 7 + 1 ∧
      get_pivots [⟨2, 3, 1, 2⟩, ⟨2, 4, 2, 3⟩] 7 = ([], []) :=
  ⟨by decide, C1_short_input_returns_empty [⟨2, 3, 1, 2⟩, ⟨2, 4, 2, 3⟩] 7 (by decide)⟩

/-- The property claimed by C2, as one predicate over the input: for every
`i` in `[length, len(bars))` the candidate `c = i - length` is confirmed as
a pivot high iff `high[c]` strictly exceeds every high in `(c, i]` (so ties
never confirm), mirrored for lows; each returned list is ascending by
index; each returned pivot carries the candidate bar's price and its side
flag (the two sides are determined independently, so one bar may appear in
both lists). -/
def C2Prop (bars : List Bar) (length : Nat) : Prop :=
  (∀ i, length ≤ i → i < bars.length →
      ((∃ p ∈ (get_pivots bars length).1, p.index = i - length) ↔
        ∀ j, i - length < j → j ≤ i → (barAt bars j).high < (barAt bars (i - length)).high)) ∧
  (∀ i, length ≤ i → i < bars.length →
      ((∃ p ∈ (get_pivots bars length).2, p.index = i - length) ↔
        ∀ j, i - length < j → j ≤ i → (barAt bars (i - length)).low < (barAt bars j).low)) ∧
  (get_pivots bars length).1.Pairwise (fun p q => p.index < q.index) ∧
  (get_pivots bars length).2.Pairwise (fun p q => p.index < q.index) ∧
  (∀ p ∈ (get_pivots bars length).1, p.price = (barAt bars p.index).high ∧ p.is_high = true) ∧
  (∀ p ∈ (get_pivots bars length).2, p.price = (barAt bars p.index).low ∧ p.is_high = false)

/-- C2: pivot confirmation is exactly strict dominance over the following
`length`-bar window, on both sides independently, and the output lists are
ascending by index.  (`1 ≤ length` reflects the configured lookbacks,
`swingLength ≥ 1` and `internalLength ≥ 1`; with `length = 0` pandas
compares against an empty window's `NaN` max and confirms nothing.) -/
theorem C2_pivot_characterization (bars : List Bar) (length : Nat)
    (hL : 1 ≤ length) (hlen : length + 1 ≤ bars.length) : C2Prop bars length := by
  refine ⟨?_, ?_, get_pivots_highs_sorted bars length hL,
    get_pivots_lows_sorted bars length hL, ?_, ?_⟩
  · intro i hi1 hi2
    constructor
    · rintro ⟨p, hp, hpidx⟩
      rw [mem_get_pivots_highs hL] at hp
      rw [← hpidx]
      intro j hj1 hj2
      exact hp.2.2.2 j (by omega) (by omega)
    · intro hall
      refine ⟨⟨i - length, (barAt bars (i - length)).high, true⟩, ?_, rfl⟩
      rw [mem_get_pivots_highs hL]
      dsimp only
      refine ⟨by omega, rfl, rfl, ?_⟩
      intro j hj1 hj2
      exact hall j (by omega) (by omega)
  · intro i hi1 hi2
    constructor
    · rintro ⟨p, hp, hpidx⟩
      rw [mem_get_pivots_lows hL] at hp
      rw [← hpidx]
      intro j hj1 hj2
      exact hp.2.2.2 j (by omega) (by omega)
    · intro hall
      refine ⟨⟨i - length, (barAt bars (i - length)).low, false⟩, ?_, rfl⟩
      rw [mem_get_pivots_lows hL]
      dsimp only
      refine ⟨by omega, rfl, rfl, ?_⟩
      intro j hj1 hj2
      exact hall j (by omega) (by omega)
  · intro p hp
    rw [mem_get_pivots_highs hL] at hp
    exact ⟨hp.2.1, hp.2.2.1⟩
  · intro p hp
    rw [mem_get_pivots_lows hL] at hp
    exact ⟨hp.2.1, hp.2.2.1⟩

/-- Closed instance of `C2_pivot_characterization` at a concrete input. -/
theorem C2_witness :
    1 ≤ 1 ∧ 1 + 1 ≤ ([⟨1, 9, 0, 5⟩, ⟨5, 5, 5, 5⟩, ⟨5, 5, 5, 5⟩] : List Bar).length ∧
      C2Prop [⟨1, 9, 0, 5⟩, ⟨5, 5, 5, 5⟩, ⟨5, 5, 5, 5⟩] 1 :=
  ⟨le_refl 1, by decide,
    C2_pivot_characterization [⟨1, 9, 0, 5⟩, ⟨5, 5, 5, 5⟩, ⟨5, 5, 5, 5⟩] 1 (le_refl 1) (by decide)⟩

/-! ### The structure state tracker -/

inductive Trend where
  | BULLISH
  | BEARISH
  | NEUTRAL
  deriving Repr, DecidableEq

inductive StructureType where
  | BOS
  | CHOCH
  deriving Repr, DecidableEq

/-- The `Structure` dataclass (one BOS/CHoCH event); `time` dropped, see `Bar`. -/
structure Structure where
  index : Nat
  price : ℚ
  type : StructureType
  trend : Trend
  deriving Repr, DecidableEq

/-- The `StructureState` dataclass, with its field defaults. -/
structure StructureState where
  internal_trend : Trend := .NEUTRAL
  swing_trend : Trend := .NEUTRAL
  last_internal_high : Option ℚ := none
  last_internal_low : Option ℚ := none
  last_internal_high_index : Option Nat := none
  last_internal_low_index : Option Nat := none
  internal_high_crossed : Bool := false
  internal_low_crossed : Bool := false
  last_swing_high : Option ℚ := none
  last_swing_low : Option ℚ := none
  last_swing_high_index : Option Nat := none
  last_swing_low_index : Option Nat := none
  swing_high_crossed : Bool := false
  swing_low_crossed : Bool := false
  new_structures : List Structure := []
  deriving Repr, DecidableEq

/-- The `SMCStrategy.__init__` parameters, with their defaults. -/
structure SMCConfig where
  swing_length : Nat := 50
  internal_length : Nat := 5
  enable_confluence_filter : Bool := true
  deriving Repr, DecidableEq

/-- `_is_bullish_bar`: the upper wick is strictly longer than the lower wick. -/
def is_bullish_bar (candle : Bar) : Prop :=
  candle.high - max candle.close candle.open_ > min candle.close candle.open_ - candle.low

/-- `_is_bearish_bar`: the upper wick is strictly shorter than the lower wick. -/
def is_bearish_bar (candle : Bar) : Prop :=
  candle.high - max candle.close candle.open_ < min candle.close candle.open_ - candle.low

instance (candle : Bar) : Decidable (is_bullish_bar candle) := by
  unfold is_bullish_bar; exact inferInstance

instance (candle : Bar) : Decidable (is_bearish_bar candle) := by
  unfold is_bearish_bar; exact inferInstance

/-- `_update_internal_structure`: each side's tracked level is replaced only
when the newest confirmed pivot of that side has a strictly greater index
than the tracked one (or none is tracked yet); replacing resets the side's
crossed flag. -/
def update_internal_structure (cfg : SMCConfig) (st : StructureState) (bars : List Bar) :
    StructureState :=
  let internal_highs := (get_pivots bars cfg.internal_length).1
  let internal_lows := (get_pivots bars cfg.internal_length).2
  let st1 :=
    match internal_highs.getLast? with
    | none => st
    | some latest_high =>
      match st.last_internal_high_index with
      | none =>
        { st with last_internal_high := some latest_high.price,
                  last_internal_high_index := some latest_high.index,
                  internal_high_crossed := false }
      | some k =>
        if latest_high.index > k then
          { st with last_internal_high := some latest_high.price,
                    last_internal_high_index := some latest_high.index,
                    internal_high_crossed := false }
        else st
  match internal_lows.getLast? with
  | none => st1
  | some latest_low =>
    match st1.last_internal_low_index with
    | none =>
      { st1 with last_internal_low := some latest_low.price,
                 last_internal_low_index := some latest_low.index,
                 internal_low_crossed := false }
    | some k =>
      if latest_low.index > k then
        { st1 with last_internal_low := some latest_low.price,
                   last_internal_low_index := some latest_low.index,
                   internal_low_crossed := false }
      else st1

/-- `_update_swing_structure`: the swing-side mirror of
`update_internal_structure`. -/
def update_swing_structure (cfg : SMCConfig) (st : StructureState) (bars : List Bar) :
    StructureState :=
  let swing_highs := (get_pivots bars cfg.swing_length).1
  let swing_lows := (get_pivots bars cfg.swing_length).2
  let st1 :=
    match swing_highs.getLast? with
    | none => st
    | some latest_high =>
      match st.last_swing_high_index with
      | none =>
        { st with last_swing_high := some latest_high.price,
                  last_swing_high_index := some latest_high.index,
                  swing_high_crossed := false }
      | some k =>
        if latest_high.index > k then
          { st with last_swing_high := some latest_high.price,
                    last_swing_high_index := some latest_high.index,
                    swing_high_crossed := false }
        else st
  match swing_lows.getLast? with
  | none => st1
  | some latest_low =>
    match st1.last_swing_low_index with
    | none =>
      { st1 with last_swing_low := some latest_low.price,
                 last_swing_low_index := some latest_low.index,
                 swing_low_crossed := false }
    | some k =>
      if latest_low.index > k then
        { st1 with last_swing_low := some latest_low.price,
                   last_swing_low_index := some latest_low.index,
                   swing_low_crossed := false }
      else st1

/-- `update_structure_state`: early return on fewer than
`max(internal_length, swing_length) + 1` bars, otherwise clear
`new_structures` and refresh both timeframes. -/
def update_structure_state (cfg : SMCConfig) (st : StructureState) (bars : List Bar) :
    StructureState :=
  if bars.length < max cfg.internal_length cfg.swing_length + 1 then st
  else
    update_swing_structure cfg
      (update_internal_structure cfg { st with new_structures := [] } bars) bars

/-- The bullish-break block of `detect_structure_realtime` (lines 245-273).
`trend`, `last_high` and `high_crossed` are the snapshot locals read at
lines 232-243 before either block runs.  The confluence gate
(`bullish_bar`, lines 223-229: the wick test when `use_internal` and the
filter is enabled, else `True`) is written as the equivalent implication
`filter_on = true → is_bullish_bar current_bar`. -/
def bullishBlock (st : StructureState) (use_internal : Bool) (filter_on : Bool)
    (current_bar : Bar) (trend : Trend) (last_high : Option ℚ) (high_crossed : Bool)
    (current_close prev_close : ℚ) (n : Nat) : StructureState × List Structure :=
  match last_high with
  | none => (st, [])
  | some lh =>
    if high_crossed = false ∧ current_close > lh ∧ prev_close ≤ lh ∧
        (filter_on = true → is_bullish_bar current_bar) then
      ((if use_internal then
          { st with internal_trend := Trend.BULLISH, internal_high_crossed := true }
        else
          { st with swing_trend := Trend.BULLISH, swing_high_crossed := true }),
       [⟨n, lh, if trend = Trend.BEARISH then StructureType.CHOCH else StructureType.BOS,
         Trend.BULLISH⟩])
    else (st, [])

/-- The bearish-break block (lines 275-303), mirror of `bullishBlock`. -/
def bearishBlock (st : StructureState) (use_internal : Bool) (filter_on : Bool)
    (current_bar : Bar) (trend : Trend) (last_low : Option ℚ) (low_crossed : Bool)
    (current_close prev_close : ℚ) (n : Nat) : StructureState × List Structure :=
  match last_low with
  | none => (st, [])
  | some ll =>
    if low_crossed = false ∧ current_close < ll ∧ prev_close ≥ ll ∧
        (filter_on = true → is_bearish_bar current_bar) then
      ((if use_internal then
          { st with internal_trend := Trend.BEARISH, internal_low_crossed := true }
        else
          { st with swing_trend := Trend.BEARISH, swing_low_crossed := true }),
       [⟨n, ll, if trend = Trend.BULLISH then StructureType.CHOCH else StructureType.BOS,
         Trend.BEARISH⟩])
    else (st, [])

/-- `detect_structure_realtime` (lines 203-305).  Both blocks test against
the same snapshot locals (in particular both classify against the same
pre-call `trend`); the bearish block mutates the state left by the bullish
block. -/
def detect_structure_realtime (cfg : SMCConfig) (st : StructureState) (bars : List Bar)
    (use_internal : Bool) : StructureState × List Structure :=
  if bars.length < 2 then (st, [])
  else
    let current_bar := barAt bars (bars.length - 1)
    let current_close := current_bar.close
    let prev_close := (barAt bars (bars.length - 2)).close
    let filter_on := use_internal && cfg.enable_confluence_filter
    let trend := if use_internal then st.internal_trend else st.swing_trend
    let last_high := if use_internal then st.last_internal_high else st.last_swing_high
    let last_low := if use_internal then st.last_internal_low else st.last_swing_low
    let high_crossed := if use_internal then st.internal_high_crossed else st.swing_high_crossed
    let low_crossed := if use_internal then st.internal_low_crossed else st.swing_low_crossed
    let bull := bullishBlock st use_internal filter_on current_bar trend last_high high_crossed
      current_close prev_close (bars.length - 1)
    let bear := bearishBlock bull.1 use_internal filter_on current_bar trend last_low low_crossed
      current_close prev_close (bars.length - 1)
    (bear.1, bull.2 ++ bear.2)

/-- One engine invocation on the bar prefix `bars`: the `update` call
followed by realtime detection, as the trading loop drives them. -/
def stepProcess (cfg : SMCConfig) (use_internal : Bool) (st : StructureState)
    (bars : List Bar) : StructureState × List Structure :=
  detect_structure_realtime cfg (update_structure_state cfg st bars) bars use_internal

/-- Incremental processing of the first `n` bars: one `stepProcess` per
prefix, accumulating emitted events in order. -/
def processUpTo (cfg : SMCConfig) (use_internal : Bool) (st0 : StructureState)
    (bars : List Bar) : Nat → StructureState × List Structure
  | 0 => (st0, [])
  | n + 1 =>
    let prev := processUpTo cfg use_internal st0 bars n
    let step := stepProcess cfg use_internal prev.1 (bars.take (n + 1))
    (step.1, prev.2 ++ step.2)

/-- The per-`i` body of the `detect_structure` batch loop (lines 332-366),
acting on the accumulator `(leg, trend, last_swing_high, last_swing_low,
structures)`.  `leg` is assigned by the source but never read; it is
carried for fidelity.  On a crossing the tracked level is consumed
(set to `None`) after the exhaustive trend classification. -/
def batchStep (cfg : SMCConfig) (bars : List Bar) (swing_highs swing_lows : List Pivot)
    (acc : Int × Trend × Option ℚ × Option ℚ × List Structure) (i : Nat) :
    Int × Trend × Option ℚ × Option ℚ × List Structure :=
  let pivot_idx := i - cfg.swing_length
  let new_leg_high := swing_highs.any (fun p => p.index == pivot_idx)
  let new_leg_low := swing_lows.any (fun p => p.index == pivot_idx)
  let leg := if new_leg_high then (-1 : Int) else if new_leg_low then 1 else acc.1
  let trend := acc.2.1
  let last_swing_high :=
    if new_leg_high then some (barAt bars pivot_idx).high else acc.2.2.1
  let last_swing_low :=
    if new_leg_high then acc.2.2.2.1
    else if new_leg_low then some (barAt bars pivot_idx).low else acc.2.2.2.1
  let structures := acc.2.2.2.2
  let curr_close := (barAt bars i).close
  let prev_close := (barAt bars (i - 1)).close
  let bull :=
    match last_swing_high with
    | some h =>
      if curr_close > h ∧ prev_close ≤ h then
        (if trend = Trend.BEARISH then
          (Trend.BULLISH, (none : Option ℚ),
           structures ++ [Structure.mk i h StructureType.CHOCH Trend.BULLISH])
        else
          (Trend.BULLISH, none, structures ++ [Structure.mk i h StructureType.BOS Trend.BULLISH]))
      else (trend, some h, structures)
    | none => (trend, none, structures)
  let bear :=
    match last_swing_low with
    | some l =>
      if curr_close < l ∧ prev_close ≥ l then
        (if bull.1 = Trend.BULLISH then
          (Trend.BEARISH, (none : Option ℚ),
           bull.2.2 ++ [Structure.mk i l StructureType.CHOCH Trend.BEARISH])
        else
          (Trend.BEARISH, none, bull.2.2 ++ [Structure.mk i l StructureType.BOS Trend.BEARISH]))
      else (bull.1, some l, bull.2.2)
    | none => (bull.1, none, bull.2.2)
  (leg, bear.1, bull.2.1, bear.2.1, bear.2.2)

/-- `detect_structure` (batch/historical detection, lines 307-368); note the
early `[]` when either pivot list is empty. -/
def detect_structure (cfg : SMCConfig) (bars : List Bar) : List Structure :=
  let swing_highs := (get_pivots bars cfg.swing_length).1
  let swing_lows := (get_pivots bars cfg.swing_length).2
  if swing_highs = [] ∨ swing_lows = [] then []
  else
    ((List.range' cfg.swing_length (bars.length - cfg.swing_length)).foldl
      (batchStep cfg bars swing_highs swing_lows)
      (0, Trend.NEUTRAL, none, none, [])).2.2.2.2

/-! ### Vocabulary for the realtime-detection claims -/

/-- The timeframe's trend field selected by `use_internal`. -/
def trackedTrend (st : StructureState) (ui : Bool) : Trend :=
  if ui then st.internal_trend else st.swing_trend

/-- The timeframe's tracked high level. -/
def trackedHigh (st : StructureState) (ui : Bool) : Option ℚ :=
  if ui then st.last_internal_high else st.last_swing_high

/-- The timeframe's tracked low level. -/
def trackedLow (st : StructureState) (ui : Bool) : Option ℚ :=
  if ui then st.last_internal_low else st.last_swing_low

/-- The timeframe's high-crossed flag. -/
def trackedHighCrossed (st : StructureState) (ui : Bool) : Bool :=
  if ui then st.internal_high_crossed else st.swing_high_crossed

/-- The timeframe's low-crossed flag. -/
def trackedLowCrossed (st : StructureState) (ui : Bool) : Bool :=
  if ui then st.internal_low_crossed else st.swing_low_crossed

/-- The bullish-crossing condition of `detect_structure_realtime`: a tracked
high exists, is not already crossed, the last close is strictly above it,
the previous close at or below it, and (for the internal timeframe with the
confluence filter enabled) the triggering bar has bullish wick bias. -/
def bullFires (cfg : SMCConfig) (st : StructureState) (bars : List Bar) (ui : Bool) : Prop :=
  ∃ lh, trackedHigh st ui = some lh ∧ trackedHighCrossed st ui = false ∧
    (barAt bars (bars.length - 1)).close > lh ∧
    (barAt bars (bars.length - 2)).close ≤ lh ∧
    ((ui && cfg.enable_confluence_filter) = true → is_bullish_bar (barAt bars (bars.length - 1)))

/-- The mirror bearish-crossing condition. -/
def bearFires (cfg : SMCConfig) (st : StructureState) (bars : List Bar) (ui : Bool) : Prop :=
  ∃ ll, trackedLow st ui = some ll ∧ trackedLowCrossed st ui = false ∧
    (barAt bars (bars.length - 1)).close < ll ∧
    (barAt bars (bars.length - 2)).close ≥ ll ∧
    ((ui && cfg.enable_confluence_filter) = true → is_bearish_bar (barAt bars (bars.length - 1)))

theorem bullishBlock_fire {st : StructureState} {ui fo : Bool} {bar : Bar} {trend : Trend}
    {last_high : Option ℚ} {hc : Bool} {cc pc : ℚ} {n : Nat} {lh : ℚ}
    (hlh : last_high = some lh) (h1 : hc = false) (h2 : cc > lh) (h3 : pc ≤ lh)
    (h4 : fo = true → is_bullish_bar bar) :
    bullishBlock st ui fo bar trend last_high hc cc pc n =
      ((if ui then
          { st with internal_trend := Trend.BULLISH, internal_high_crossed := true }
        else
          { st with swing_trend := Trend.BULLISH, swing_high_crossed := true }),
       [⟨n, lh, if trend = Trend.BEARISH then StructureType.CHOCH else StructureType.BOS,
         Trend.BULLISH⟩]) := by
  subst hlh
  unfold bullishBlock
  dsimp only
  rw [if_pos ⟨h1, h2, h3, h4⟩]

theorem bullishBlock_quiet {st : StructureState} {ui fo : Bool} {bar : Bar} {trend : Trend}
    {last_high : Option ℚ} {hc : Bool} {cc pc : ℚ} {n : Nat}
    (h : ∀ lh, last_high = some lh →
      ¬(hc = false ∧ cc > lh ∧ pc ≤ lh ∧ (fo = true → is_bullish_bar bar))) :
    bullishBlock st ui fo bar trend last_high hc cc pc n = (st, []) := by
  unfold bullishBlock
  cases last_high with
  | none => rfl
  | some lh =>
    dsimp only
    rw [if_neg (h lh rfl)]

theorem bearishBlock_fire {st : StructureState} {ui fo : Bool} {bar : Bar} {trend : Trend}
    {last_low : Option ℚ} {lc : Bool} {cc pc : ℚ} {n : Nat} {ll : ℚ}
    (hll : last_low = some ll) (h1 : lc = false) (h2 : cc < ll) (h3 : pc ≥ ll)
    (h4 : fo = true → is_bearish_bar bar) :
    bearishBlock st ui fo bar trend last_low lc cc pc n =
      ((if ui then
          { st with internal_trend := Trend.BEARISH, internal_low_crossed := true }
        else
          { st with swing_trend := Trend.BEARISH, swing_low_crossed := true }),
       [⟨n, ll, if trend = Trend.BULLISH then StructureType.CHOCH else StructureType.BOS,
         Trend.BEARISH⟩]) := by
  subst hll
  unfold bearishBlock
  dsimp only
  rw [if_pos ⟨h1, h2, h3, h4⟩]

theorem bearishBlock_quiet {st : StructureState} {ui fo : Bool} {bar : Bar} {trend : Trend}
    {last_low : Option ℚ} {lc : Bool} {cc pc : ℚ} {n : Nat}
    (h : ∀ ll, last_low = some ll →
      ¬(lc = false ∧ cc < ll ∧ pc ≥ ll ∧ (fo = true → is_bearish_bar bar))) :
    bearishBlock st ui fo bar trend last_low lc cc pc n = (st, []) := by
  unfold bearishBlock
  cases last_low with
  | none => rfl
  | some ll =>
    dsimp only
    rw [if_neg (h ll rfl)]

/-- A bullish and a bearish crossing can never both hold on the same call:
their price conditions on the two closes are jointly unsatisfiable. -/
theorem not_bullFires_and_bearFires (cfg : SMCConfig) (st : StructureState)
    (bars : List Bar) (ui : Bool) :
    ¬(bullFires cfg st bars ui ∧ bearFires cfg st bars ui) := by
  rintro ⟨⟨lh, _, _, hc1, hp1, _⟩, ⟨ll, _, _, hc2, hp2, _⟩⟩
  have h1 : lh < ll := lt_trans (lt_of_lt_of_le hc1 (le_refl _)) hc2
  have h2 : ll ≤ lh := le_trans hp2 hp1
  linarith

/-- The expanded form of `detect_structure_realtime` on at least two bars. -/
theorem detect_structure_realtime_eq (cfg : SMCConfig) (st : StructureState)
    (bars : List Bar) (ui : Bool) (h2 : 2 ≤ bars.length) :
    detect_structure_realtime cfg st bars ui =
      (let bull := bullishBlock st ui (ui && cfg.enable_confluence_filter)
        (barAt bars (bars.length - 1)) (trackedTrend st ui) (trackedHigh st ui)
        (trackedHighCrossed st ui) (barAt bars (bars.length - 1)).close
        (barAt bars (bars.length - 2)).close (bars.length - 1)
       let bear := bearishBlock bull.1 ui (ui && cfg.enable_confluence_filter)
        (barAt bars (bars.length - 1)) (trackedTrend st ui) (trackedLow st ui)
        (trackedLowCrossed st ui) (barAt bars (bars.length - 1)).close
        (barAt bars (bars.length - 2)).close (bars.length - 1)
       (bear.1, bull.2 ++ bear.2)) := by
  unfold detect_structure_realtime trackedTrend trackedHigh trackedLow trackedHighCrossed
    trackedLowCrossed
  rw [if_neg (by omega)]

/-! ### Claim C3: realtime crossing detection and BOS/CHoCH classification -/

/-- The property claimed by C3 for one `detect_structure_realtime` call on
one timeframe: a bullish event is emitted iff the bullish crossing
condition holds (mirror for bearish); every emitted event sits on the last
bar, carries the tracked level as its price, is classified CHoCH exactly
when the pre-call trend opposes it (else BOS, neutral included), and the
timeframe's trend and crossed flag are set accordingly.  The two crossing
conditions are jointly unsatisfiable, so the claim's same-bar double-event
scenario cannot occur and at most one event is emitted per call. -/
def C3Prop (cfg : SMCConfig) (st : StructureState) (bars : List Bar) (ui : Bool) : Prop :=
  ((∃ e ∈ (detect_structure_realtime cfg st bars ui).2, e.trend = Trend.BULLISH) ↔
    bullFires cfg st bars ui) ∧
  ((∃ e ∈ (detect_structure_realtime cfg st bars ui).2, e.trend = Trend.BEARISH) ↔
    bearFires cfg st bars ui) ∧
  ¬(bullFires cfg st bars ui ∧ bearFires cfg st bars ui) ∧
  (∀ e ∈ (detect_structure_realtime cfg st bars ui).2, e.trend = Trend.BULLISH →
    e.index = bars.length - 1 ∧ trackedHigh st ui = some e.price ∧
    e.type = (if trackedTrend st ui = Trend.BEARISH then StructureType.CHOCH
      else StructureType.BOS) ∧
    trackedTrend (detect_structure_realtime cfg st bars ui).1 ui = Trend.BULLISH ∧
    trackedHighCrossed (detect_structure_realtime cfg st bars ui).1 ui = true) ∧
  (∀ e ∈ (detect_structure_realtime cfg st bars ui).2, e.trend = Trend.BEARISH →
    e.index = bars.length - 1 ∧ trackedLow st ui = some e.price ∧
    e.type = (if trackedTrend st ui = Trend.BULLISH then StructureType.CHOCH
      else StructureType.BOS) ∧
    trackedTrend (detect_structure_realtime cfg st bars ui).1 ui = Trend.BEARISH ∧
    trackedLowCrossed (detect_structure_realtime cfg st bars ui).1 ui = true)

/-- C3: on each timeframe a bullish event is emitted iff the tracked-high
crossing condition holds (mirror for bearish); classification is CHoCH iff
the pre-event trend opposes the event (BOS otherwise, neutral included) and
the trend is then set to the event's direction.  The claim's trailing
scenario — both directions firing on one bar — is impossible (the price
conditions contradict), which the third conjunct records; each emitted
event is therefore classified against the unique pre-event trend. -/
theorem C3_realtime_classification (cfg : SMCConfig) (st : StructureState) (bars : List Bar)
    (ui : Bool) (h2 : 2 ≤ bars.length) : C3Prop cfg st bars ui := by
  unfold C3Prop
  rw [detect_structure_realtime_eq cfg st bars ui h2]
  dsimp only
  by_cases hbf : bullFires cfg st bars ui
  · obtain ⟨lh, hlh, hcf, hcc, hpc, hfb⟩ := hbf
    have hnb : ¬bearFires cfg st bars ui := fun hbr =>
      not_bullFires_and_bearFires cfg st bars ui ⟨⟨lh, hlh, hcf, hcc, hpc, hfb⟩, hbr⟩
    rw [bullishBlock_fire hlh hcf hcc hpc hfb]
    rw [bearishBlock_quiet (fun ll hll hcond => hnb ⟨ll, hll, hcond.1, hcond.2.1,
      hcond.2.2.1, hcond.2.2.2⟩)]
    dsimp only
    refine ⟨?_, ?_, fun h => hnb h.2, ?_, ?_⟩
    · simp only [List.append_nil, List.mem_singleton]
      exact ⟨fun _ => ⟨lh, hlh, hcf, hcc, hpc, hfb⟩, fun _ => ⟨_, rfl, rfl⟩⟩
    · simp only [List.append_nil, List.mem_singleton]
      constructor
      · rintro ⟨e, rfl, he⟩
        exact absurd he (by simp)
      · intro h
        exact absurd h hnb
    · simp only [List.append_nil, List.mem_singleton]
      rintro e rfl _
      refine ⟨rfl, by rw [hlh], rfl, ?_, ?_⟩
      · cases ui <;> simp [trackedTrend]
      · cases ui <;> simp [trackedHighCrossed]
    · simp only [List.append_nil, List.mem_singleton]
      rintro e rfl he
      exact absurd he (by simp)
  · by_cases hbr : bearFires cfg st bars ui
    · obtain ⟨ll, hll, hcf, hcc, hpc, hfb⟩ := hbr
      rw [bullishBlock_quiet (fun lh hlh hcond => hbf ⟨lh, hlh, hcond.1, hcond.2.1,
        hcond.2.2.1, hcond.2.2.2⟩)]
      dsimp only
      rw [bearishBlock_fire hll hcf hcc hpc hfb]
      dsimp only
      refine ⟨?_, ?_, fun h => hbf h.1, ?_, ?_⟩
      · simp only [List.nil_append, List.mem_singleton]
        constructor
        · rintro ⟨e, rfl, he⟩
          exact absurd he (by simp)
        · intro h
          exact absurd h hbf
      · simp only [List.nil_append, List.mem_singleton]
        exact ⟨fun _ => ⟨ll, hll, hcf, hcc, hpc, hfb⟩, fun _ => ⟨_, rfl, rfl⟩⟩
      · simp only [List.nil_append, List.mem_singleton]
        rintro e rfl he
        exact absurd he (by simp)
      · simp only [List.nil_append, List.mem_singleton]
        rintro e rfl _
        refine ⟨rfl, by rw [hll], rfl, ?_, ?_⟩
        · cases ui <;> simp [trackedTrend]
        · cases ui <;> simp [trackedLowCrossed]
    · rw [bullishBlock_quiet (fun lh hlh hcond => hbf ⟨lh, hlh, hcond.1, hcond.2.1,
        hcond.2.2.1, hcond.2.2.2⟩)]
      dsimp only
      rw [bearishBlock_quiet (fun ll hll hcond => hbr ⟨ll, hll, hcond.1, hcond.2.1,
        hcond.2.2.1, hcond.2.2.2⟩)]
      dsimp only
      refine ⟨?_, ?_, fun h => hbf h.1, ?_, ?_⟩
      · simp only [List.append_nil, List.not_mem_nil]
        exact ⟨fun ⟨_, h, _⟩ => absurd h (by simp), fun h => absurd h hbf⟩
      · simp only [List.append_nil, List.not_mem_nil]
        exact ⟨fun ⟨_, h, _⟩ => absurd h (by simp), fun h => absurd h hbr⟩
      · simp only [List.append_nil]
        rintro e he
        exact absurd he (by simp)
      · simp only [List.append_nil]
        rintro e he
        exact absurd he (by simp)

/-- The concrete state for the C3 witness: swing timeframe tracking a high
at 10, neutral trend. -/
def stC3 : StructureState :=
  { last_swing_high := some 10, last_swing_low := some 1 }

/-- Closed instance of `C3_realtime_classification` at a concrete input. -/
theorem C3_witness :
    2 ≤ ([⟨9, 9, 8, 9⟩, ⟨9, 12, 9, 11⟩] : List Bar).length ∧
      C3Prop {} stC3 [⟨9, 9, 8, 9⟩, ⟨9, 12, 9, 11⟩] false :=
  ⟨by decide,
    C3_realtime_classification {} stC3 [⟨9, 9, 8, 9⟩, ⟨9, 12, 9, 11⟩] false (by decide)⟩

/-! ### Claim C4: confluence-filter suppression leaves the state untouched -/

/-- C4: with the confluence filter enabled, on the internal timeframe, a bar
whose closes cross the tracked level but whose wick bias contradicts the
crossing direction produces no event and leaves the whole state unchanged —
in particular `crossedFlag` is not set and the tracked level, its flag and
the internal trend stay available for a later bar. -/
theorem C4_suppressed_crossing_is_frame (cfg : SMCConfig) (st : StructureState)
    (bars : List Bar) (h2 : 2 ≤ bars.length) (hf : cfg.enable_confluence_filter = true) :
    ((∃ lh, st.last_internal_high = some lh ∧ st.internal_high_crossed = false ∧
        (barAt bars (bars.length - 1)).close > lh ∧
        (barAt bars (bars.length - 2)).close ≤ lh) →
      ¬is_bullish_bar (barAt bars (bars.length - 1)) →
      detect_structure_realtime cfg st bars true = (st, [])) ∧
    ((∃ ll, st.last_internal_low = some ll ∧ st.internal_low_crossed = false ∧
        (barAt bars (bars.length - 1)).close < ll ∧
        (barAt bars (bars.length - 2)).close ≥ ll) →
      ¬is_bearish_bar (barAt bars (bars.length - 1)) →
      detect_structure_realtime cfg st bars true = (st, [])) := by
  constructor
  · rintro ⟨lh, hlh, hcf, hcc, hpc⟩ hwick
    rw [detect_structure_realtime_eq cfg st bars true h2]
    dsimp only
    rw [bullishBlock_quiet (fun lh' hlh' hcond => hwick (hcond.2.2.2 (by rw [hf]; rfl)))]
    rw [bearishBlock_quiet ?_]
    · simp
    · rintro ll hll ⟨_, hcc', hpc', _⟩
      simp only [trackedLow, if_pos rfl, hll] at hll ⊢
      linarith
  · rintro ⟨ll, hll, hcf, hcc, hpc⟩ hwick
    rw [detect_structure_realtime_eq cfg st bars true h2]
    dsimp only
    rw [bullishBlock_quiet ?_]
    · rw [bearishBlock_quiet (fun ll' hll' hcond => hwick (hcond.2.2.2 (by rw [hf]; rfl)))]
      simp
    · rintro lh hlh ⟨_, hcc', hpc', _⟩
      simp only [trackedHigh, if_pos rfl, hlh] at hlh ⊢
      linarith

/-- The concrete state for the C4 witness: internal timeframe tracking a
high at 10 and a low at 1. -/
def stC4 : StructureState :=
  { last_internal_high := some 10, last_internal_low := some 1 }

/-- Closed instance of `C4_suppressed_crossing_is_frame` at a concrete
input (the triggering bar closes above 10 but its lower wick dominates). -/
theorem C4_witness :
    (2 ≤ ([⟨9, 9, 8, 9⟩, ⟨11, 12, 2, 11⟩] : List Bar).length ∧
      ({ enable_confluence_filter := true } : SMCConfig).enable_confluence_filter = true) ∧
    ((∃ lh, stC4.last_internal_high = some lh ∧ stC4.internal_high_crossed = false ∧
        (barAt [⟨9, 9, 8, 9⟩, ⟨11, 12, 2, 11⟩] 1).close > lh ∧
        (barAt [⟨9, 9, 8, 9⟩, ⟨11, 12, 2, 11⟩] 0).close ≤ lh) →
      ¬is_bullish_bar (barAt [⟨9, 9, 8, 9⟩, ⟨11, 12, 2, 11⟩] 1) →
      detect_structure_realtime {} stC4 [⟨9, 9, 8, 9⟩, ⟨11, 12, 2, 11⟩] true = (stC4, [])) ∧
    ((∃ ll, stC4.last_internal_low = some ll ∧ stC4.internal_low_crossed = false ∧
        (barAt [⟨9, 9, 8, 9⟩, ⟨11, 12, 2, 11⟩] 1).close < ll ∧
        (barAt [⟨9, 9, 8, 9⟩, ⟨11, 12, 2, 11⟩] 0).close ≥ ll) →
      ¬is_bearish_bar (barAt [⟨9, 9, 8, 9⟩, ⟨11, 12, 2, 11⟩] 1) →
      detect_structure_realtime {} stC4 [⟨9, 9, 8, 9⟩, ⟨11, 12, 2, 11⟩] true = (stC4, [])) :=
  ⟨⟨by decide, rfl⟩,
    C4_suppressed_crossing_is_frame {} stC4 [⟨9, 9, 8, 9⟩, ⟨11, 12, 2, 11⟩] (by decide) rfl⟩

/-! ### Claim C5: tracked levels only advance -/

/-- One tracked side across one `update` call: either the index, level and
crossed flag are all exactly as before, or the side advanced to a pivot
with a strictly greater index and its crossed flag was reset to `false`. -/
def C5side (oldIdx : Option Nat) (oldLvl : Option ℚ) (oldCr : Bool)
    (newIdx : Option Nat) (newLvl : Option ℚ) (newCr : Bool) : Prop :=
  (newIdx = oldIdx ∧ newLvl = oldLvl ∧ newCr = oldCr) ∨
  (∃ k', newIdx = some k' ∧ newCr = false ∧ ∀ k, oldIdx = some k → k < k')

theorem update_internal_structure_spec (cfg : SMCConfig) (st : StructureState)
    (bars : List Bar) :
    C5side st.last_internal_high_index st.last_internal_high st.internal_high_crossed
      (update_internal_structure cfg st bars).last_internal_high_index
      (update_internal_structure cfg st bars).last_internal_high
      (update_internal_structure cfg st bars).internal_high_crossed ∧
    C5side st.last_internal_low_index st.last_internal_low st.internal_low_crossed
      (update_internal_structure cfg st bars).last_internal_low_index
      (update_internal_structure cfg st bars).last_internal_low
      (update_internal_structure cfg st bars).internal_low_crossed ∧
    (update_internal_structure cfg st bars).last_swing_high_index = st.last_swing_high_index ∧
    (update_internal_structure cfg st bars).last_swing_high = st.last_swing_high ∧
    (update_internal_structure cfg st bars).swing_high_crossed = st.swing_high_crossed ∧
    (update_internal_structure cfg st bars).last_swing_low_index = st.last_swing_low_index ∧
    (update_internal_structure cfg st bars).last_swing_low = st.last_swing_low ∧
    (update_internal_structure cfg st bars).swing_low_crossed = st.swing_low_crossed ∧
    (update_internal_structure cfg st bars).internal_trend = st.internal_trend ∧
    (update_internal_structure cfg st bars).swing_trend = st.swing_trend ∧
    (update_internal_structure cfg st bars).new_structures = st.new_structures := by
  unfold update_internal_structure
  dsimp only
  repeat' split
  all_goals simp_all [C5side]

theorem update_swing_structure_spec (cfg : SMCConfig) (st : StructureState)
    (bars : List Bar) :
    C5side st.last_swing_high_index st.last_swing_high st.swing_high_crossed
      (update_swing_structure cfg st bars).last_swing_high_index
      (update_swing_structure cfg st bars).last_swing_high
      (update_swing_structure cfg st bars).swing_high_crossed ∧
    C5side st.last_swing_low_index st.last_swing_low st.swing_low_crossed
      (update_swing_structure cfg st bars).last_swing_low_index
      (update_swing_structure cfg st bars).last_swing_low
      (update_swing_structure cfg st bars).swing_low_crossed ∧
    (update_swing_structure cfg st bars).last_internal_high_index = st.last_internal_high_index ∧
    (update_swing_structure cfg st bars).last_internal_high = st.last_internal_high ∧
    (update_swing_structure cfg st bars).internal_high_crossed = st.internal_high_crossed ∧
    (update_swing_structure cfg st bars).last_internal_low_index = st.last_internal_low_index ∧
    (update_swing_structure cfg st bars).last_internal_low = st.last_internal_low ∧
    (update_swing_structure cfg st bars).internal_low_crossed = st.internal_low_crossed ∧
    (update_swing_structure cfg st bars).internal_trend = st.internal_trend ∧
    (update_swing_structure cfg st bars).swing_trend = st.swing_trend ∧
    (update_swing_structure cfg st bars).new_structures = st.new_structures := by
  unfold update_swing_structure
  dsimp only
  repeat' split
  all_goals simp_all [C5side]

/-- The four tracked sides of the state across one `update_structure_state`
call: each is unchanged or strictly advanced with its flag reset. -/
def C5Prop (st st' : StructureState) : Prop :=
  C5side st.last_internal_high_index st.last_internal_high st.internal_high_crossed
    st'.last_internal_high_index st'.last_internal_high st'.internal_high_crossed ∧
  C5side st.last_internal_low_index st.last_internal_low st.internal_low_crossed
    st'.last_internal_low_index st'.last_internal_low st'.internal_low_crossed ∧
  C5side st.last_swing_high_index st.last_swing_high st.swing_high_crossed
    st'.last_swing_high_index st'.last_swing_high st'.swing_high_crossed ∧
  C5side st.last_swing_low_index st.last_swing_low st.swing_low_crossed
    st'.last_swing_low_index st'.last_swing_low st'.swing_low_crossed

/-- Index comparison on optionally-tracked indices: whatever was tracked is
still tracked, at the same or a greater index. -/
def idxLE (o o' : Option Nat) : Prop :=
  ∀ k, o = some k → ∃ k', o' = some k' ∧ k ≤ k'

theorem C5side_idxLE {oi ni : Option Nat} {ol nl : Option ℚ} {oc nc : Bool}
    (h : C5side oi ol oc ni nl nc) : idxLE oi ni := by
  rcases h with ⟨h1, _, _⟩ | ⟨k', h1, _, h3⟩
  · intro k hk
    exact ⟨k, h1.trans hk, le_refl k⟩
  · intro k hk
    exact ⟨k', h1, le_of_lt (h3 k hk)⟩

theorem idxLE_trans {a b c : Option Nat} (h1 : idxLE a b) (h2 : idxLE b c) : idxLE a c := by
  intro k hk
  obtain ⟨k', hk', hle⟩ := h1 k hk
  obtain ⟨k'', hk'', hle'⟩ := h2 k' hk'
  exact ⟨k'', hk'', le_trans hle hle'⟩

theorem update_structure_state_C5Prop (cfg : SMCConfig) (st : StructureState)
    (bars : List Bar) : C5Prop st (update_structure_state cfg st bars) := by
  unfold update_structure_state
  split
  · exact ⟨Or.inl ⟨rfl, rfl, rfl⟩, Or.inl ⟨rfl, rfl, rfl⟩,
      Or.inl ⟨rfl, rfl, rfl⟩, Or.inl ⟨rfl, rfl, rfl⟩⟩
  · have hint := update_internal_structure_spec cfg { st with new_structures := [] } bars
    have hsw := update_swing_structure_spec cfg
      (update_internal_structure cfg { st with new_structures := [] } bars) bars
    refine ⟨?_, ?_, ?_, ?_⟩
    · rw [C5side, hsw.2.2.1, hsw.2.2.2.1, hsw.2.2.2.2.1]
      exact hint.1
    · rw [C5side, hsw.2.2.2.2.2.1, hsw.2.2.2.2.2.2.1, hsw.2.2.2.2.2.2.2.1]
      exact hint.2.1
    · have h := hsw.1
      rw [C5side, hint.2.2.1, hint.2.2.2.1, hint.2.2.2.2.1] at h
      exact h
    · have h := hsw.2.1
      rw [C5side, hint.2.2.2.2.2.1, hint.2.2.2.2.2.2.1, hint.2.2.2.2.2.2.2.1] at h
      exact h

/-- C5: across one `update_structure_state` call each tracked side is either
untouched or replaced by a strictly newer pivot with its crossed flag reset
(first conjunct), and consequently across any sequence of `update` calls on
any bar sequences the four `last*Index` fields are non-decreasing (second
conjunct). -/
theorem C5_tracked_levels_advance (cfg : SMCConfig) (st : StructureState) (bars : List Bar) :
    C5Prop st (update_structure_state cfg st bars) ∧
    ∀ dfs : List (List Bar),
      idxLE st.last_internal_high_index
        ((dfs.foldl (update_structure_state cfg) st).last_internal_high_index) ∧
      idxLE st.last_internal_low_index
        ((dfs.foldl (update_structure_state cfg) st).last_internal_low_index) ∧
      idxLE st.last_swing_high_index
        ((dfs.foldl (update_structure_state cfg) st).last_swing_high_index) ∧
      idxLE st.last_swing_low_index
        ((dfs.foldl (update_structure_state cfg) st).last_swing_low_index) := by
  refine ⟨update_structure_state_C5Prop cfg st bars, ?_⟩
  intro dfs
  induction dfs generalizing st with
  | nil =>
    exact ⟨fun k hk => ⟨k, hk, le_refl k⟩, fun k hk => ⟨k, hk, le_refl k⟩,
      fun k hk => ⟨k, hk, le_refl k⟩, fun k hk => ⟨k, hk, le_refl k⟩⟩
  | cons d ds ih =>
    have hstep := update_structure_state_C5Prop cfg st d
    have htail := ih (update_structure_state cfg st d)
    rw [List.foldl_cons]
    exact ⟨idxLE_trans (C5side_idxLE hstep.1) htail.1,
      idxLE_trans (C5side_idxLE hstep.2.1) htail.2.1,
      idxLE_trans (C5side_idxLE hstep.2.2.1) htail.2.2.1,
      idxLE_trans (C5side_idxLE hstep.2.2.2) htail.2.2.2⟩

/-! ### Claim C6: replay idempotence, and the batch reference -/

/-- C6 (amended): replay idempotence of the incremental algorithm.  For a
bar sequence grown by one bar, (1) processing the first `n ≤ N` positions
is unchanged by the growth, and (2) processing all `N + 1` positions
directly equals processing the first `N` and then stepping once on the
grown sequence: the state is threaded through and the events for positions
`1..N` are reproduced unchanged. -/
theorem C6_replay_idempotence (cfg : SMCConfig) (ui : Bool) (st0 : StructureState)
    (bars : List Bar) (b : Bar) (n : Nat) (hn : n ≤ bars.length) :
    processUpTo cfg ui st0 (bars ++ [b]) n = processUpTo cfg ui st0 bars n ∧
    processUpTo cfg ui st0 (bars ++ [b]) (bars.length + 1) =
      ((stepProcess cfg ui (processUpTo cfg ui st0 bars bars.length).1 (bars ++ [b])).1,
       (processUpTo cfg ui st0 bars bars.length).2 ++
         (stepProcess cfg ui (processUpTo cfg ui st0 bars bars.length).1 (bars ++ [b])).2) := by
  have main : ∀ m, m ≤ bars.length →
      processUpTo cfg ui st0 (bars ++ [b]) m = processUpTo cfg ui st0 bars m := by
    intro m
    induction m with
    | zero => intro _; rfl
    | succ k ih =>
      intro hm
      simp only [processUpTo]
      rw [ih (by omega), List.take_append_of_le_length (by omega)]
  refine ⟨main n hn, ?_⟩
  have htake : (bars ++ [b]).take (bars.length + 1) = bars ++ [b] := by
    apply List.take_of_length_le
    simp
  simp only [processUpTo]
  rw [main bars.length (le_refl _), htake]

/-- Closed instance of `C6_replay_idempotence` at a concrete input. -/
theorem C6_witness :
    1 ≤ ([⟨1, 2, 1, 1⟩, ⟨1, 3, 1, 2⟩] : List Bar).length ∧
      (processUpTo {} true {} ([⟨1, 2, 1, 1⟩, ⟨1, 3, 1, 2⟩] ++ [⟨2, 4, 2, 3⟩]) 1 =
        processUpTo {} true {} [⟨1, 2, 1, 1⟩, ⟨1, 3, 1, 2⟩] 1 ∧
      processUpTo {} true {} ([⟨1, 2, 1, 1⟩, ⟨1, 3, 1, 2⟩] ++ [⟨2, 4, 2, 3⟩]) 3 =
        ((stepProcess {} true
            (processUpTo {} true {} [⟨1, 2, 1, 1⟩, ⟨1, 3, 1, 2⟩] 2).1
            ([⟨1, 2, 1, 1⟩, ⟨1, 3, 1, 2⟩] ++ [⟨2, 4, 2, 3⟩])).1,
         (processUpTo {} true {} [⟨1, 2, 1, 1⟩, ⟨1, 3, 1, 2⟩] 2).2 ++
           (stepProcess {} true
              (processUpTo {} true {} [⟨1, 2, 1, 1⟩, ⟨1, 3, 1, 2⟩] 2).1
              ([⟨1, 2, 1, 1⟩, ⟨1, 3, 1, 2⟩] ++ [⟨2, 4, 2, 3⟩])).2)) :=
  ⟨by decide, C6_replay_idempotence {} true {} [⟨1, 2, 1, 1⟩, ⟨1, 3, 1, 2⟩] ⟨2, 4, 2, 3⟩ 1
    (by decide)⟩

/-- The configuration for the C6 counterexample: both lookbacks 2. -/
def cfgC6 : SMCConfig := ⟨2, 2, true⟩

/-- The bars for the C6 counterexample: lows confirm a swing-low pivot at
index 0 (low 1) once bar 2 closes, highs never confirm any pivot, and the
last close 0 crosses under the tracked low. -/
def barsC6 : List Bar :=
  [⟨5, 10, 1, 5⟩, ⟨5, 10, 2, 5⟩, ⟨5, 10, 2, 5⟩, ⟨5, 10, 2, 0⟩]

/-- C6, counterexample to the equivalence half of the claim: on `barsC6`
the incremental path (update + realtime detection per bar, swing timeframe)
emits a bearish BOS on bar 3, while the batch reference `detect_structure`
returns no events at all: its guard returns `[]` whenever either pivot list
is empty, and here there are no swing-high pivots. -/
theorem C6_counterexample :
    (processUpTo cfgC6 false {} barsC6 4).2 =
      [⟨3, 1, StructureType.BOS, Trend.BEARISH⟩] ∧
    detect_structure cfgC6 barsC6 = [] := by
  constructor
  · decide
  · decide

/-! ### Claims C7 and C10: the fair value gap detector -/

/-- The `FVG` dataclass; `time` dropped, see `Bar`. -/
structure FVG where
  top : ℚ
  bottom : ℚ
  bias : Trend
  index : Nat
  mitigated : Bool := false
  deriving Repr, DecidableEq

/-- The auto-threshold scan of `detect_fvg` (lines 436-448).  A bar whose
`open` is 0 is skipped entirely: it contributes nothing to the mean (it is
not appended as a 0 delta). -/
def bar_deltas (bars : List Bar) : List ℚ :=
  (List.range' 1 (bars.length - 1)).filterMap (fun i =>
    if (barAt bars i).open_ ≠ 0 then
      some |((barAt bars i).close - (barAt bars i).open_) / (barAt bars i).open_ * 100|
    else none)

/-- The threshold of `detect_fvg`: `np.mean(bar_deltas) * 2` over the
collected deltas when `auto_threshold` and some delta exists, else 0. -/
def fvg_threshold (bars : List Bar) (auto_threshold : Bool) : ℚ :=
  if auto_threshold = true then
    if bar_deltas bars ≠ [] then
      (bar_deltas bars).foldl (· + ·) 0 / (bar_deltas bars).length * 2
    else 0
  else 0

/-- `bar_delta_pct` for the formation ending at index `i` (lines 462-466):
0 when `open[i-1] == 0`. -/
def fvg_body_delta (bars : List Bar) (i : Nat) : ℚ :=
  if (barAt bars (i - 1)).open_ ≠ 0 then
    |((barAt bars (i - 1)).close - (barAt bars (i - 1)).open_) / (barAt bars (i - 1)).open_ * 100|
  else 0

/-- The body of the detection loop of `detect_fvg` for one index `i`
(lines 452-491): the independent bullish and bearish 3-bar gap tests. -/
def fvgAt (bars : List Bar) (threshold : ℚ) (i : Nat) : List FVG :=
  (if (barAt bars i).low > (barAt bars (i - 2)).high ∧
      (barAt bars (i - 1)).close > (barAt bars (i - 2)).high ∧
      fvg_body_delta bars i > threshold then
    [FVG.mk (barAt bars i).low (barAt bars (i - 2)).high Trend.BULLISH i false]
  else []) ++
  (if (barAt bars i).high < (barAt bars (i - 2)).low ∧
      (barAt bars (i - 1)).close < (barAt bars (i - 2)).low ∧
      fvg_body_delta bars i > threshold then
    [FVG.mk (barAt bars (i - 2)).low (barAt bars i).high Trend.BEARISH i false]
  else [])

/-- `detect_fvg` (lines 423-492). -/
def detect_fvg (bars : List Bar) (auto_threshold : Bool) : List FVG :=
  if bars.length < 3 then []
  else
    (List.range' 2 (bars.length - 2)).flatMap (fvgAt bars (fvg_threshold bars auto_threshold))

theorem mem_fvgAt {bars : List Bar} {T : ℚ} {i : Nat} {f : FVG} :
    f ∈ fvgAt bars T i ↔
      (f = FVG.mk (barAt bars i).low (barAt bars (i - 2)).high Trend.BULLISH i false ∧
        ((barAt bars i).low > (barAt bars (i - 2)).high ∧
         (barAt bars (i - 1)).close > (barAt bars (i - 2)).high ∧
         fvg_body_delta bars i > T)) ∨
      (f = FVG.mk (barAt bars (i - 2)).low (barAt bars i).high Trend.BEARISH i false ∧
        ((barAt bars i).high < (barAt bars (i - 2)).low ∧
         (barAt bars (i - 1)).close < (barAt bars (i - 2)).low ∧
         fvg_body_delta bars i > T)) := by
  unfold fvgAt
  rw [List.mem_append]
  split_ifs with h1 h2 <;> simp_all

theorem mem_detect_fvg {bars : List Bar} {auto : Bool} {f : FVG} :
    f ∈ detect_fvg bars auto ↔
      3 ≤ bars.length ∧ ∃ i, 2 ≤ i ∧ i < bars.length ∧ f ∈ fvgAt bars (fvg_threshold bars auto) i := by
  unfold detect_fvg
  split
  · simp only [List.not_mem_nil, false_iff]
    rintro ⟨h3, _⟩
    omega
  · rw [List.mem_flatMap]
    constructor
    · rintro ⟨i, hi, hmem⟩
      rw [List.mem_range'_1] at hi
      exact ⟨by omega, i, hi.1, by omega, hmem⟩
    · rintro ⟨h3, i, hi1, hi2, hmem⟩
      exact ⟨i, List.mem_range'_1.mpr ⟨hi1, by omega⟩, hmem⟩

/-- The whole property claimed by C7 (threshold handling amended to match
the code): the FVG returned at `i` are exactly those passing the 3-bar gap
tests against the code's threshold, where `fvg_threshold` is 0 without
`auto_threshold`, and with it equals twice the mean of the deltas of the
bars in `[1, len)` whose open is nonzero (0 when every open is 0). -/
def C7Prop (bars : List Bar) (auto : Bool) : Prop :=
  (∀ f, f ∈ detect_fvg bars auto ↔
    3 ≤ bars.length ∧ ∃ i, 2 ≤ i ∧ i < bars.length ∧
      ((f = FVG.mk (barAt bars i).low (barAt bars (i - 2)).high Trend.BULLISH i false ∧
        ((barAt bars i).low > (barAt bars (i - 2)).high ∧
         (barAt bars (i - 1)).close > (barAt bars (i - 2)).high ∧
         fvg_body_delta bars i > fvg_threshold bars auto)) ∨
       (f = FVG.mk (barAt bars (i - 2)).low (barAt bars i).high Trend.BEARISH i false ∧
        ((barAt bars i).high < (barAt bars (i - 2)).low ∧
         (barAt bars (i - 1)).close < (barAt bars (i - 2)).low ∧
         fvg_body_delta bars i > fvg_threshold bars auto)))) ∧
  fvg_threshold bars false = 0 ∧
  (bar_deltas bars = [] → fvg_threshold bars true = 0) ∧
  (bar_deltas bars ≠ [] →
    fvg_threshold bars true =
      (bar_deltas bars).foldl (· + ·) 0 / (bar_deltas bars).length * 2)

/-- C7 (amended): the FVG emission characterization with the code's actual
threshold: zero-open bars are excluded from the mean (not averaged in as
0), and the threshold is 0 when no bar has a nonzero open. -/
theorem C7_fvg_characterization (bars : List Bar) (auto : Bool) : C7Prop bars auto := by
  refine ⟨?_, rfl, ?_, ?_⟩
  · intro f
    rw [mem_detect_fvg]
    constructor
    · rintro ⟨h3, i, hi1, hi2, hmem⟩
      exact ⟨h3, i, hi1, hi2, mem_fvgAt.mp hmem⟩
    · rintro ⟨h3, i, hi1, hi2, hmem⟩
      exact ⟨h3, i, hi1, hi2, mem_fvgAt.mpr hmem⟩
  · intro h
    unfold fvg_threshold
    rw [if_pos rfl, if_neg (by simp [h])]
  · intro h
    unfold fvg_threshold
    rw [if_pos rfl, if_pos h]

/-- Closed instance of `C7_fvg_characterization` at a concrete input. -/
theorem C7_witness : C7Prop [⟨1, 2, 1, 2⟩, ⟨2, 3, 2, 3⟩, ⟨3, 5, 4, 5⟩] false :=
  C7_fvg_characterization [⟨1, 2, 1, 2⟩, ⟨2, 3, 2, 3⟩, ⟨3, 5, 4, 5⟩] false

/-- The bars of the C7 counterexample: bar 1 has a zero open (skipped by the
code's mean, averaged in as 0 by the claim), bar 2 carries a 150% body,
bar 3 completes a bullish 3-bar gap over bar 1. -/
def barsC7 : List Bar :=
  [⟨1, 1, 1, 1⟩, ⟨0, 1, 0, 1⟩, ⟨1, 3, 1, 5/2⟩, ⟨1, 3, 2, 1⟩]

/-- The threshold as the C7 claim states it: every bar `k` in `[1, len)`
contributes `delta_k` to the mean, with `delta_k = 0` when `open[k] == 0`
(rather than being skipped). -/
def spec_fvg_threshold (bars : List Bar) (auto : Bool) : ℚ :=
  if auto = true then
    ((List.range' 1 (bars.length - 1)).map (fun k =>
        if (barAt bars k).open_ = 0 then 0
        else |((barAt bars k).close - (barAt bars k).open_) / (barAt bars k).open_ * 100|)).foldl
      (· + ·) 0 / (bars.length - 1) * 2
  else 0

/-- C7, counterexample to the claim as stated: on `barsC7` with
`autoThreshold = true` the code emits no FVG (its threshold, the mean over
the two nonzero-open bars times 2, is 150, and the candidate body delta is
exactly 150, not strictly greater), while the claim's conditions for a
bullish FVG at `i = 3` all hold (its threshold, averaging the zero-open
bar in as 0, is 100 < 150). -/
theorem C7_counterexample :
    detect_fvg barsC7 true = [] ∧
    3 ≤ barsC7.length ∧ 2 ≤ 3 ∧ 3 < barsC7.length ∧
    (barAt barsC7 3).low > (barAt barsC7 (3 - 2)).high ∧
    (barAt barsC7 (3 - 1)).close > (barAt barsC7 (3 - 2)).high ∧
    fvg_body_delta barsC7 3 > spec_fvg_threshold barsC7 true := by
  have hdeltas : bar_deltas barsC7 = [150, 0] := by
    norm_num [bar_deltas, barsC7, barAt, List.range', List.filterMap]
  have hthr : fvg_threshold barsC7 true = 150 := by
    rw [fvg_threshold, if_pos rfl, if_pos (by rw [hdeltas]; simp), hdeltas]
    norm_num
  refine ⟨?_, by decide, by decide, by decide, ?_, ?_, ?_⟩
  · rw [detect_fvg, if_neg (by decide), hthr]
    norm_num [fvgAt, fvg_body_delta, barsC7, barAt, List.range', List.flatMap]
  · norm_num [barsC7, barAt]
  · norm_num [barsC7, barAt]
  · norm_num [spec_fvg_threshold, fvg_body_delta, barsC7, barAt, List.range', List.map,
      List.foldl]

/-- C10: every fair value gap returned by the detector has its top strictly
above its bottom, with no assumption on the input bars: the bullish branch
fires only when `low[i] > high[i-2]` and returns exactly that pair, and the
bearish branch only when `high[i] < low[i-2]`. -/
theorem C10_fvg_top_gt_bottom (bars : List Bar) (auto : Bool) :
    ∀ f ∈ detect_fvg bars auto, f.bottom < f.top := by
  intro f hf
  rw [mem_detect_fvg] at hf
  obtain ⟨h3, i, hi1, hi2, hmem⟩ := hf
  rcases mem_fvgAt.mp hmem with ⟨rfl, hgap, _⟩ | ⟨rfl, hgap, _⟩ <;> exact hgap

/-- Closed instance of `C10_fvg_top_gt_bottom` at a concrete input holding
one bullish FVG. -/
theorem C10_witness :
    FVG.mk 4 2 Trend.BULLISH 2 false ∈ detect_fvg [⟨1, 2, 1, 2⟩, ⟨2, 3, 2, 3⟩, ⟨3, 5, 4, 5⟩] false ∧
      (FVG.mk 4 2 Trend.BULLISH 2 false).bottom < (FVG.mk 4 2 Trend.BULLISH 2 false).top := by
  have hmem : FVG.mk 4 2 Trend.BULLISH 2 false ∈
      detect_fvg [⟨1, 2, 1, 2⟩, ⟨2, 3, 2, 3⟩, ⟨3, 5, 4, 5⟩] false := by
    rw [mem_detect_fvg]
    refine ⟨by decide, 2, le_refl 2, by decide, ?_⟩
    rw [mem_fvgAt]
    left
    refine ⟨by norm_num [barAt], ?_, ?_, ?_⟩ <;>
      norm_num [barAt, fvg_body_delta, fvg_threshold]
  exact ⟨hmem, C10_fvg_top_gt_bottom [⟨1, 2, 1, 2⟩, ⟨2, 3, 2, 3⟩, ⟨3, 5, 4, 5⟩] false _ hmem⟩

/-! ### Claim C8: the order block locator -/

/-- The `OrderBlock` dataclass; `time` dropped, see `Bar`. -/
structure OrderBlock where
  top : ℚ
  bottom : ℚ
  mitigation_index : Option Nat
  bias : Trend
  index : Nat
  deriving Repr, DecidableEq

/-- `numpy.argmin` over a list of prices: the first position attaining the
minimum (numpy raises on an empty input; every call below is on a nonempty
leg range, the 0 default is never reached there). -/
def argmin : List ℚ → Nat
  | [] => 0
  | x :: xs =>
    if xs = [] then 0
    else
      let j := argmin xs
      if x ≤ xs.getD j 0 then 0 else j + 1

/-- `numpy.argmax`: the first position attaining the maximum. -/
def argmax : List ℚ → Nat
  | [] => 0
  | x :: xs =>
    if xs = [] then 0
    else
      let j := argmax xs
      if x ≥ xs.getD j 0 then 0 else j + 1

theorem argmin_lt_length {l : List ℚ} (h : l ≠ []) : argmin l < l.length := by
  induction l with
  | nil => exact absurd rfl h
  | cons x xs ih =>
    rw [argmin]
    by_cases hxs : xs = []
    · rw [if_pos hxs]
      simp
    · rw [if_neg hxs]
      dsimp only
      split
      · simp
      · have := ih hxs
        simp only [List.length_cons]
        omega

theorem argmin_min {l : List ℚ} (h : l ≠ []) :
    ∀ k, k < l.length → l.getD (argmin l) 0 ≤ l.getD k 0 := by
  induction l with
  | nil => exact absurd rfl h
  | cons x xs ih =>
    intro k hk
    rw [argmin]
    by_cases hxs : xs = []
    · subst hxs
      have hk0 : k = 0 := by simpa using hk
      subst hk0
      simp
    · rw [if_neg hxs]
      dsimp only
      have harg := argmin_lt_length hxs
      split
      next hle =>
        cases k with
        | zero => simp
        | succ k' =>
          simp only [List.getD_cons_zero, List.getD_cons_succ]
          exact le_trans hle (ih hxs k' (by simpa using hk))
      next hgt =>
        push_neg at hgt
        cases k with
        | zero =>
          simp only [List.getD_cons_succ, List.getD_cons_zero]
          exact le_of_lt hgt
        | succ k' =>
          simp only [List.getD_cons_succ]
          exact ih hxs k' (by simpa using hk)

theorem argmin_first {l : List ℚ} (h : l ≠ []) :
    ∀ k, k < argmin l → l.getD (argmin l) 0 < l.getD k 0 := by
  induction l with
  | nil => exact absurd rfl h
  | cons x xs ih =>
    intro k hk
    rw [argmin] at hk ⊢
    by_cases hxs : xs = []
    · rw [if_pos hxs] at hk
      omega
    · rw [if_neg hxs] at hk ⊢
      dsimp only at hk ⊢
      by_cases hle : x ≤ xs.getD (argmin xs) 0
      · rw [if_pos hle] at hk
        omega
      · rw [if_neg hle] at hk ⊢
        push_neg at hle
        cases k with
        | zero =>
          simp only [List.getD_cons_succ, List.getD_cons_zero]
          exact hle
        | succ k' =>
          simp only [List.getD_cons_succ]
          exact ih hxs k' (by omega)
  
theorem argmax_lt_length {l : List ℚ} (h : l ≠ []) : argmax l < l.length := by
  induction l with
  | nil => exact absurd rfl h
  | cons x xs ih =>
    rw [argmax]
    by_cases hxs : xs = []
    · rw [if_pos hxs]
      simp
    · rw [if_neg hxs]
      dsimp only
      split
      · simp
      · have := ih hxs
        simp only [List.length_cons]
        omega

theorem argmax_max {l : List ℚ} (h : l ≠ []) :
    ∀ k, k < l.length → l.getD k 0 ≤ l.getD (argmax l) 0 := by
  induction l with
  | nil => exact absurd rfl h
  | cons x xs ih =>
    intro k hk
    rw [argmax]
    by_cases hxs : xs = []
    · subst hxs
      have hk0 : k = 0 := by simpa using hk
      subst hk0
      simp
    · rw [if_neg hxs]
      dsimp only
      have harg := argmax_lt_length hxs
      split
      next hle =>
        cases k with
        | zero => simp
        | succ k' =>
          simp only [List.getD_cons_zero, List.getD_cons_succ]
          exact le_trans (ih hxs k' (by simpa using hk)) hle
      next hgt =>
        push_neg at hgt
        cases k with
        | zero =>
          simp only [List.getD_cons_succ, List.getD_cons_zero]
          exact le_of_lt hgt
        | succ k' =>
          simp only [List.getD_cons_succ]
          exact ih hxs k' (by simpa using hk)

theorem argmax_first {l : List ℚ} (h : l ≠ []) :
    ∀ k, k < argmax l → l.getD k 0 < l.getD (argmax l) 0 := by
  induction l with
  | nil => exact absurd rfl h
  | cons x xs ih =>
    intro k hk
    rw [argmax] at hk ⊢
    by_cases hxs : xs = []
    · rw [if_pos hxs] at hk
      omega
    · rw [if_neg hxs] at hk ⊢
      dsimp only at hk ⊢
      by_cases hge : x ≥ xs.getD (argmax xs) 0
      · rw [if_pos hge] at hk
        omega
      · rw [if_neg hge] at hk ⊢
        push_neg at hge
        cases k with
        | zero =>
          simp only [List.getD_cons_succ, List.getD_cons_zero]
          exact hge
        | succ k' =>
          simp only [List.getD_cons_succ]
          exact ih hxs k' (by omega)

theorem getLast?_filter_spec {l : List Pivot} (hs : l.Pairwise (fun p q => p.index < q.index))
    (f : Pivot → Bool) :
    ((l.filter f).getLast? = none ↔ ∀ q ∈ l, ¬(f q = true)) ∧
    (∀ p, (l.filter f).getLast? = some p →
      p ∈ l ∧ f p = true ∧ ∀ q ∈ l, f q = true → q.index ≤ p.index) := by
  constructor
  · rw [List.getLast?_eq_none_iff, List.filter_eq_nil_iff]
  · intro p hp
    rw [List.getLast?_eq_some_iff] at hp
    obtain ⟨ys, hys⟩ := hp
    have hpf : p ∈ l.filter f := by
      rw [hys]
      exact List.mem_append_right ys (by simp)
    have hmem := List.mem_filter.mp hpf
    refine ⟨hmem.1, hmem.2, ?_⟩
    intro q hq hfq
    have hqf : q ∈ l.filter f := List.mem_filter.mpr ⟨hq, hfq⟩
    rw [hys] at hqf
    rcases List.mem_append.mp hqf with hqy | hqp
    · have hsf : (ys ++ [p]).Pairwise (fun a b => a.index < b.index) := by
        rw [← hys]
        exact List.Pairwise.sublist (List.filter_sublist l) hs
      rw [List.pairwise_append] at hsf
      exact le_of_lt (hsf.2.2 q hqy p (by simp))
    · simp only [List.mem_singleton] at hqp
      rw [hqp]

theorem leg_range_length {bars : List Bar} (f : Bar → ℚ) {a b : Nat} (hb : b < bars.length) :
    (((bars.drop a).take (b + 1 - a)).map f).length = b + 1 - a := by
  simp only [List.length_map, List.length_take, List.length_drop]
  omega

theorem leg_range_getD {bars : List Bar} (f : Bar → ℚ) {a b r : Nat}
    (hb : b < bars.length) (hr : r < b + 1 - a) :
    (((bars.drop a).take (b + 1 - a)).map f).getD r 0 = f (barAt bars (a + r)) := by
  have hlen : r < (((bars.drop a).take (b + 1 - a)).map f).length := by
    simp only [List.length_map, List.length_take, List.length_drop]
    omega
  rw [List.getD_eq_getElem _ _ hlen, List.getElem_map, List.getElem_take, List.getElem_drop,
    barAt, List.getD_eq_getElem _ _ (by omega : a + r < bars.length)]

/-- The body of the `for struct in structures` loop of `detect_order_blocks`
(lines 381-419) for one event: pick the most recent opposite-type swing
pivot before the break (skip the event if none), then anchor on the
extreme-price candle of the leg `[pivot.index, break_index]` (numpy
`argmin`/`argmax`, first occurrence).  Any trend other than `BULLISH` takes
the bearish branch, as in the source's `if/else`. -/
def order_block_for (bars : List Bar) (swing_highs swing_lows : List Pivot)
    (struct : Structure) : Option OrderBlock :=
  let break_index := struct.index
  let relevant_pivots :=
    if struct.trend = Trend.BULLISH then
      swing_lows.filter (fun p => decide (p.index < break_index))
    else
      swing_highs.filter (fun p => decide (p.index < break_index))
  match relevant_pivots.getLast? with
  | none => none
  | some last_pivot =>
    let leg_range := (bars.drop last_pivot.index).take (break_index + 1 - last_pivot.index)
    if struct.trend = Trend.BULLISH then
      let min_idx_rel := argmin (leg_range.map Bar.low)
      let ob_index := last_pivot.index + min_idx_rel
      some (OrderBlock.mk (barAt bars ob_index).high (barAt bars ob_index).low none
        Trend.BULLISH ob_index)
    else
      let max_idx_rel := argmax (leg_range.map Bar.high)
      let ob_index := last_pivot.index + max_idx_rel
      some (OrderBlock.mk (barAt bars ob_index).high (barAt bars ob_index).low none
        Trend.BEARISH ob_index)

/-- `detect_order_blocks` (lines 370-421): one `order_block_for` per event,
skipping events without an opposite pivot.  (The `high_pivots` and
`low_pivots` dictionaries of lines 378-379 are dead code and are omitted.) -/
def detect_order_blocks (cfg : SMCConfig) (bars : List Bar) (structures : List Structure) :
    List OrderBlock :=
  structures.filterMap
    (order_block_for bars (get_pivots bars cfg.swing_length).1
      (get_pivots bars cfg.swing_length).2)

/-- The property claimed by C8 for one structure event: an order block is
produced iff an opposite-extreme swing pivot precedes the break; the
produced block anchors on the bar of `[pivot.index, breakIndex]` with the
minimal low (bullish) or maximal high (bearish), first occurrence winning
ties, and carries that candle's high/low, the event's direction, and the
anchor index. -/
def C8Prop (cfg : SMCConfig) (bars : List Bar) (struct : Structure) : Prop :=
  (order_block_for bars (get_pivots bars cfg.swing_length).1
      (get_pivots bars cfg.swing_length).2 struct = none ↔
    ∀ p ∈ (if struct.trend = Trend.BULLISH then (get_pivots bars cfg.swing_length).2
      else (get_pivots bars cfg.swing_length).1), ¬(p.index < struct.index)) ∧
  (∀ ob, order_block_for bars (get_pivots bars cfg.swing_length).1
      (get_pivots bars cfg.swing_length).2 struct = some ob →
    ∃ p ∈ (if struct.trend = Trend.BULLISH then (get_pivots bars cfg.swing_length).2
      else (get_pivots bars cfg.swing_length).1),
      p.index < struct.index ∧
      (∀ q ∈ (if struct.trend = Trend.BULLISH then (get_pivots bars cfg.swing_length).2
        else (get_pivots bars cfg.swing_length).1),
        q.index < struct.index → q.index ≤ p.index) ∧
      p.index ≤ ob.index ∧ ob.index ≤ struct.index ∧
      ob.top = (barAt bars ob.index).high ∧ ob.bottom = (barAt bars ob.index).low ∧
      ob.bias = struct.trend ∧ ob.mitigation_index = none ∧
      (struct.trend = Trend.BULLISH →
        (∀ j, p.index ≤ j → j ≤ struct.index →
          (barAt bars ob.index).low ≤ (barAt bars j).low) ∧
        (∀ j, p.index ≤ j → j < ob.index →
          (barAt bars ob.index).low < (barAt bars j).low)) ∧
      (struct.trend = Trend.BEARISH →
        (∀ j, p.index ≤ j → j ≤ struct.index →
          (barAt bars j).high ≤ (barAt bars ob.index).high) ∧
        (∀ j, p.index ≤ j → j < ob.index →
          (barAt bars j).high < (barAt bars ob.index).high)))

/-- C8: for each structure event, the locator produces an order block iff an
opposite-extreme swing pivot precedes the break index; the block anchors on
the first extreme-price candle of the leg `[pivot.index, breakIndex]` and
carries that candle's high/low, the event's direction and the anchor index.
Also ties `detect_order_blocks` to the per-event function. -/
theorem C8_order_block_characterization (cfg : SMCConfig) (bars : List Bar)
    (struct : Structure) (hL : 1 ≤ cfg.swing_length) (hB : struct.index < bars.length)
    (hD : struct.trend = Trend.BULLISH ∨ struct.trend = Trend.BEARISH) :
    C8Prop cfg bars struct ∧
    ∀ structures, detect_order_blocks cfg bars structures =
      structures.filterMap (order_block_for bars (get_pivots bars cfg.swing_length).1
        (get_pivots bars cfg.swing_length).2) := by
  refine ⟨?_, fun structures => rfl⟩
  rcases hD with hD | hD
  · have hsorted := get_pivots_lows_sorted bars cfg.swing_length hL
    have hspec := getLast?_filter_spec hsorted (fun p => decide (p.index < struct.index))
    unfold C8Prop order_block_for
    simp only [hD, eq_self_iff_true, if_true]
    cases hlast : ((get_pivots bars cfg.swing_length).2.filter
        (fun p => decide (p.index < struct.index))).getLast? with
    | none =>
      constructor
      · constructor
        · intro _ p hp hplt
          exact absurd (decide_eq_true hplt) (hspec.1.mp hlast p hp)
        · intro _
          rfl
      · intro ob hob
        exact absurd hob (by simp)
    | some lp =>
      obtain ⟨hlpmem, hlpf, hlpmax⟩ := hspec.2 lp hlast
      have hlpB : lp.index < struct.index := of_decide_eq_true hlpf
      constructor
      · constructor
        · intro h
          exact absurd h (by simp)
        · intro hall
          exact absurd hlpB (hall lp hlpmem)
      · intro ob hob
        injection hob with hob
        subst hob
        have hlen := @leg_range_length bars Bar.low lp.index struct.index hB
        have hne : (((bars.drop lp.index).take (struct.index + 1 - lp.index)).map Bar.low)
            ≠ [] := by
          intro hc
          rw [hc] at hlen
          simp only [List.length_nil] at hlen
          omega
        have hr := argmin_lt_length hne
        rw [hlen] at hr
        refine ⟨lp, hlpmem, hlpB, ?_, ?_, ?_, rfl, rfl, rfl, rfl, ?_, ?_⟩
        · intro q hq hqlt
          exact hlpmax q hq (decide_eq_true hqlt)
        · exact Nat.le_add_right _ _
        · show lp.index +
            argmin (((bars.drop lp.index).take (struct.index + 1 - lp.index)).map Bar.low)
            ≤ struct.index
          omega
        · intro _
          constructor
          · intro j hj1 hj2
            have hmin := argmin_min hne (j - lp.index) (by rw [hlen]; omega)
            rw [leg_range_getD Bar.low hB hr, leg_range_getD Bar.low hB (by omega),
              show lp.index + (j - lp.index) = j from by omega] at hmin
            exact hmin
          · intro j hj1 hj2
            have hj2' : j < lp.index +
                argmin (((bars.drop lp.index).take (struct.index + 1 - lp.index)).map Bar.low) :=
              hj2
            have hfirst := argmin_first hne (j - lp.index) (by omega)
            rw [leg_range_getD Bar.low hB hr, leg_range_getD Bar.low hB (by omega),
              show lp.index + (j - lp.index) = j from by omega] at hfirst
            exact hfirst
        · intro hc
          exact absurd hc (by simp)
  · have hsorted := get_pivots_highs_sorted bars cfg.swing_length hL
    have hspec := getLast?_filter_spec hsorted (fun p => decide (p.index < struct.index))
    unfold C8Prop order_block_for
    simp only [hD, show (Trend.BEARISH = Trend.BULLISH) = False from by simp, if_false]
    cases hlast : ((get_pivots bars cfg.swing_length).1.filter
        (fun p => decide (p.index < struct.index))).getLast? with
    | none =>
      constructor
      · constructor
        · intro _ p hp hplt
          exact absurd (decide_eq_true hplt) (hspec.1.mp hlast p hp)
        · intro _
          rfl
      · intro ob hob
        exact absurd hob (by simp)
    | some lp =>
      obtain ⟨hlpmem, hlpf, hlpmax⟩ := hspec.2 lp hlast
      have hlpB : lp.index < struct.index := of_decide_eq_true hlpf
      constructor
      · constructor
        · intro h
          exact absurd h (by simp)
        · intro hall
          exact absurd hlpB (hall lp hlpmem)
      · intro ob hob
        injection hob with hob
        subst hob
        have hlen := @leg_range_length bars Bar.high lp.index struct.index hB
        have hne : (((bars.drop lp.index).take (struct.index + 1 - lp.index)).map Bar.high)
            ≠ [] := by
          intro hc
          rw [hc] at hlen
          simp only [List.length_nil] at hlen
          omega
        have hr := argmax_lt_length hne
        rw [hlen] at hr
        refine ⟨lp, hlpmem, hlpB, ?_, ?_, ?_, rfl, rfl, rfl, rfl, ?_, ?_⟩
        · intro q hq hqlt
          exact hlpmax q hq (decide_eq_true hqlt)
        · exact Nat.le_add_right _ _
        · show lp.index +
            argmax (((bars.drop lp.index).take (struct.index + 1 - lp.index)).map Bar.high)
            ≤ struct.index
          omega
        · intro hc
          exact absurd hc (by simp)
        · intro _
          constructor
          · intro j hj1 hj2
            have hmax := argmax_max hne (j - lp.index) (by rw [hlen]; omega)
            rw [leg_range_getD Bar.high hB hr, leg_range_getD Bar.high hB (by omega),
              show lp.index + (j - lp.index) = j from by omega] at hmax
            exact hmax
          · intro j hj1 hj2
            have hj2' : j < lp.index +
                argmax (((bars.drop lp.index).take (struct.index + 1 - lp.index)).map Bar.high) :=
              hj2
            have hfirst := argmax_first hne (j - lp.index) (by omega)
            rw [leg_range_getD Bar.high hB hr, leg_range_getD Bar.high hB (by omega),
              show lp.index + (j - lp.index) = j from by omega] at hfirst
            exact hfirst

/-- The configuration for the C8 and C9 witnesses and counterexample:
swing lookback 1. -/
def cfgS1 : SMCConfig := ⟨1, 5, true⟩

/-- The bars for the C8 witness: rising highs (no swing-high pivot), rising
lows above bar 0 (swing-low pivots at 0 and 1). -/
def barsC8 : List Bar := [⟨5, 5, 1, 5⟩, ⟨5, 6, 2, 5⟩, ⟨5, 7, 3, 5⟩]

/-- The event for the C8 witness: a bullish break at bar 2. -/
def structC8 : Structure := ⟨2, 5, StructureType.BOS, Trend.BULLISH⟩

/-- Closed instance of `C8_order_block_characterization` at a concrete
input. -/
theorem C8_witness :
    C8Prop cfgS1 barsC8 structC8 ∧
    ∀ structures, detect_order_blocks cfgS1 barsC8 structures =
      structures.filterMap (order_block_for barsC8 (get_pivots barsC8 cfgS1.swing_length).1
        (get_pivots barsC8 cfgS1.swing_length).2) :=
  C8_order_block_characterization cfgS1 barsC8 structC8 (le_refl 1) (by decide) (Or.inl rfl)

/-! ### Claim C9: the equal highs/lows detector -/

/-- True range of bar `i` as the pandas pipeline of lines 503-508 computes
it: the row max over `high-low`, `|high-close.shift()|` and
`|low-close.shift()|`.  The shifted close is `NaN` on row 0 and
`concat(...).max(axis=1)` skips `NaN`s, so `tr bars 0 = high 0 - low 0`
(not 0). -/
def tr (bars : List Bar) (i : Nat) : ℚ :=
  if i = 0 then (barAt bars 0).high - (barAt bars 0).low
  else
    max ((barAt bars i).high - (barAt bars i).low)
      (max |(barAt bars i).high - (barAt bars (i - 1)).close|
        |(barAt bars i).low - (barAt bars (i - 1)).close|)

/-- `tr.rolling(14).mean().fillna(0)`: 0 until the window holds 14
observations (`i ≤ 12`), afterwards the mean of `tr` over `[i-13, i]`. -/
def atr (bars : List Bar) (i : Nat) : ℚ :=
  if i + 1 < 14 then 0
  else ((List.range' (i - 13) 14).map (tr bars)).foldl (· + ·) 0 / 14

/-- `detect_equal_highs_lows` (lines 494-529).  The inner
`for p in swing_highs: ... break` loop appends exactly one pivot (built
from bar `i`, not from `p`) iff some earlier swing pivot lies within the
tolerance, which is the existential test used here. -/
def detect_equal_highs_lows (cfg : SMCConfig) (bars : List Bar) (threshold_atr : ℚ) :
    List Pivot × List Pivot :=
  ((List.range' cfg.swing_length (bars.length - cfg.swing_length)).filterMap (fun i =>
      if ∃ p ∈ (get_pivots bars cfg.swing_length).1, p.index < i ∧
          |(barAt bars i).high - p.price| < threshold_atr * atr bars i then
        some (Pivot.mk i (barAt bars i).high true)
      else none),
   (List.range' cfg.swing_length (bars.length - cfg.swing_length)).filterMap (fun i =>
      if ∃ p ∈ (get_pivots bars cfg.swing_length).2, p.index < i ∧
          |(barAt bars i).low - p.price| < threshold_atr * atr bars i then
        some (Pivot.mk i (barAt bars i).low false)
      else none))

theorem mem_eqh_iff {cfg : SMCConfig} {bars : List Bar} {tol : ℚ} {p : Pivot} :
    p ∈ (detect_equal_highs_lows cfg bars tol).1 ↔
      ∃ i, cfg.swing_length ≤ i ∧ i < bars.length ∧
        p = Pivot.mk i (barAt bars i).high true ∧
        ∃ q ∈ (get_pivots bars cfg.swing_length).1, q.index < i ∧
          |(barAt bars i).high - q.price| < tol * atr bars i := by
  unfold detect_equal_highs_lows
  dsimp only
  rw [List.mem_filterMap]
  constructor
  · rintro ⟨i, hi, hsome⟩
    rw [List.mem_range'_1] at hi
    split at hsome
    next hex =>
      injection hsome with hsome
      exact ⟨i, hi.1, by omega, hsome.symm, hex⟩
    next => exact absurd hsome (by simp)
  · rintro ⟨i, hi1, hi2, hp, hex⟩
    refine ⟨i, List.mem_range'_1.mpr ⟨hi1, by omega⟩, ?_⟩
    rw [if_pos hex, hp]

theorem mem_eql_iff {cfg : SMCConfig} {bars : List Bar} {tol : ℚ} {p : Pivot} :
    p ∈ (detect_equal_highs_lows cfg bars tol).2 ↔
      ∃ i, cfg.swing_length ≤ i ∧ i < bars.length ∧
        p = Pivot.mk i (barAt bars i).low false ∧
        ∃ q ∈ (get_pivots bars cfg.swing_length).2, q.index < i ∧
          |(barAt bars i).low - q.price| < tol * atr bars i := by
  unfold detect_equal_highs_lows
  dsimp only
  rw [List.mem_filterMap]
  constructor
  · rintro ⟨i, hi, hsome⟩
    rw [List.mem_range'_1] at hi
    split at hsome
    next hex =>
      injection hsome with hsome
      exact ⟨i, hi.1, by omega, hsome.symm, hex⟩
    next => exact absurd hsome (by simp)
  · rintro ⟨i, hi1, hi2, hp, hex⟩
    refine ⟨i, List.mem_range'_1.mpr ⟨hi1, by omega⟩, ?_⟩
    rw [if_pos hex, hp]

/-- The property claimed by C9 (with the TR/ATR base cases amended to what
the pandas pipeline computes): an EQH is emitted at `i ≥ swingLength` iff
some earlier swing-high pivot lies strictly within `tol * ATR[i]` of
`high[i]` (EQL mirrors with lows); `ATR[i]` is 0 while the 14-bar window is
incomplete and otherwise the mean of TR over `[i-13, i]`; `TR[i]` is the
usual true range for `i ≥ 1` and `high[0] - low[0]` at `i = 0`. -/
def C9Prop (cfg : SMCConfig) (bars : List Bar) (tol : ℚ) : Prop :=
  (∀ p, p ∈ (detect_equal_highs_lows cfg bars tol).1 ↔
    ∃ i, cfg.swing_length ≤ i ∧ i < bars.length ∧
      p = Pivot.mk i (barAt bars i).high true ∧
      ∃ q ∈ (get_pivots bars cfg.swing_length).1, q.index < i ∧
        |(barAt bars i).high - q.price| < tol * atr bars i) ∧
  (∀ p, p ∈ (detect_equal_highs_lows cfg bars tol).2 ↔
    ∃ i, cfg.swing_length ≤ i ∧ i < bars.length ∧
      p = Pivot.mk i (barAt bars i).low false ∧
      ∃ q ∈ (get_pivots bars cfg.swing_length).2, q.index < i ∧
        |(barAt bars i).low - q.price| < tol * atr bars i) ∧
  (∀ i, i + 1 < 14 → atr bars i = 0) ∧
  (∀ i, 14 ≤ i + 1 →
    atr bars i = ((List.range' (i - 13) 14).map (tr bars)).foldl (· + ·) 0 / 14) ∧
  tr bars 0 = (barAt bars 0).high - (barAt bars 0).low ∧
  (∀ i, 1 ≤ i → tr bars i =
    max ((barAt bars i).high - (barAt bars i).low)
      (max |(barAt bars i).high - (barAt bars (i - 1)).close|
        |(barAt bars i).low - (barAt bars (i - 1)).close|))

/-- C9 (amended): the EQH/EQL emission characterization, with the code's
actual true-range base cases: `TR[0]` is `high[0] - low[0]` (the claim's
"TR taken as 0 at i = 0" does not hold), and `ATR[i]` is 0 exactly while
fewer than 14 true ranges exist. -/
theorem C9_eqhl_characterization (cfg : SMCConfig) (bars : List Bar) (tol : ℚ) :
    C9Prop cfg bars tol := by
  refine ⟨fun p => mem_eqh_iff, fun p => mem_eql_iff, ?_, ?_, rfl, ?_⟩
  · intro i hi
    rw [atr, if_pos hi]
  · intro i hi
    rw [atr, if_neg (by omega)]
  · intro i hi
    rw [tr, if_neg (by omega)]

/-- Closed instance of `C9_eqhl_characterization` at a concrete input. -/
theorem C9_witness : C9Prop cfgS1 barsC8 1 :=
  C9_eqhl_characterization cfgS1 barsC8 1

/-- The bars of the C9 counterexample: bar 0 spans 100 points (so the code's
`TR[0] = 100`, while the claim takes `TR[0] = 0`), bars 1-12 are flat, and
bar 13 probes the tolerance with a high of 95 against the swing-high pivot
price 100 of bar 0. -/
def barsC9 : List Bar :=
  [⟨50, 100, 0, 50⟩,
   ⟨50, 50, 50, 50⟩, ⟨50, 50, 50, 50⟩, ⟨50, 50, 50, 50⟩, ⟨50, 50, 50, 50⟩,
   ⟨50, 50, 50, 50⟩, ⟨50, 50, 50, 50⟩, ⟨50, 50, 50, 50⟩, ⟨50, 50, 50, 50⟩,
   ⟨50, 50, 50, 50⟩, ⟨50, 50, 50, 50⟩, ⟨50, 50, 50, 50⟩, ⟨50, 50, 50, 50⟩,
   ⟨50, 95, 50, 50⟩]

/-- True range as the C9 claim states it: "TR taken as 0 at i = 0". -/
def spec_tr (bars : List Bar) (i : Nat) : ℚ :=
  if i = 0 then 0
  else
    max ((barAt bars i).high - (barAt bars i).low)
      (max |(barAt bars i).high - (barAt bars (i - 1)).close|
        |(barAt bars i).low - (barAt bars (i - 1)).close|)

/-- ATR over `spec_tr` with the same 14-bar trailing window as the claim. -/
def spec_atr (bars : List Bar) (i : Nat) : ℚ :=
  if i + 1 < 14 then 0
  else ((List.range' (i - 13) 14).map (spec_tr bars)).foldl (· + ·) 0 / 14

/-- C9, counterexample to the claim as stated: on `barsC9` with
`swingLength = 1` and `toleranceFraction = 1`, the code emits an equal-high
at `i = 13` (its `ATR[13]` is `145/14 ≈ 10.36`, since the code's `TR[0]` is
`high[0] - low[0] = 100`, and `|95 - 100| = 5 < 145/14`), while under the
claim's `TR[0] = 0` the threshold is `45/14 ≈ 3.21` and no earlier
swing-high pivot is within it, so the claim predicts no equal-high at 13. -/
theorem C9_counterexample :
    Pivot.mk 13 95 true ∈ (detect_equal_highs_lows cfgS1 barsC9 1).1 ∧
    ∀ q ∈ (get_pivots barsC9 cfgS1.swing_length).1, q.index < 13 →
      ¬(|(barAt barsC9 13).high - q.price| < 1 * spec_atr barsC9 13) := by
  have hpivots : (get_pivots barsC9 1).1 = [Pivot.mk 0 100 true] := by decide
  have hatr : atr barsC9 13 = 145 / 14 := by
    rw [atr, if_neg (by omega)]
    norm_num [List.range', tr, barsC9, barAt, max_def, abs]
  have hspecatr : spec_atr barsC9 13 = 45 / 14 := by
    rw [spec_atr, if_neg (by omega)]
    norm_num [List.range', spec_tr, barsC9, barAt, max_def, abs]
  constructor
  · rw [mem_eqh_iff]
    refine ⟨13, by decide, by decide, by decide, Pivot.mk 0 100 true, ?_, by decide, ?_⟩
    · show Pivot.mk 0 100 true ∈ (get_pivots barsC9 1).1
      rw [hpivots]
      exact List.mem_singleton_self _
    · rw [hatr]
      norm_num [barsC9, barAt, abs]
  · intro q hq hqlt
    rw [show (get_pivots barsC9 cfgS1.swing_length).1 = [Pivot.mk 0 100 true] from hpivots]
      at hq
    rw [List.mem_singleton] at hq
    subst hq
    rw [hspecatr]
    norm_num [barsC9, barAt, abs]

end SMC
